import Mathlib

/-!
# The C++ wrapper of libmodbus (`src/modbus-cpp.cpp`)

A shallow embedding of the wrapper classes `Modbus`, `ModbusTCPServer` and
`ModbusTCPServer::Mapping`, followed by theorems about them.

Conventions of the embedding.

* C `int` values are `Int`; `uint8_t` / `uint16_t` elements are `Nat`, reduced modulo
  `2^8` / `2^16` where a store truncates.
* A `std::vector<T>` is a `List Nat`.  `size_t` is 64 bits wide and `max_size()` is
  `(2^63 - 1) / sizeof(T)`, the values of an LP64 platform.
* A C++ function that can throw returns `Except Raised α`.
* The functions of the C library (`modbus_read_bits`, `modbus_receive`, ...) are not part of
  the wrapper.  The wrapper functions take them as arguments, as state-passing functions over
  an arbitrary state `σ`; the theorems about the wrapper alone hold for every such argument.
* Where a statement depends on what the C library does (the protocol engine behind
  `write_registers` / `read_holding_registers` / `write_and_read_registers`, `modbus_close`,
  the socket accessors), the library function is modelled from the spec; each such definition
  says so in its doc comment.
-/

namespace modbus

/-! ## Exceptions and `std::vector` -/

/-- What a wrapper function can throw: `modbus::Exception` (with the message the wrapper
passes, without the `modbus_strerror(errno)` suffix) or the `std::length_error` of
`std::vector`. -/
inductive Raised where
  | Exception (what : String)
  | length_error
  deriving DecidableEq, Repr

deriving instance DecidableEq for Except

/-- The result is a `modbus::Exception`. -/
def isException {α : Type} : Except Raised α → Bool
  | .error (.Exception _) => true
  | _ => false

/-- The call returned normally. -/
def returnsNormally {α : Type} : Except Raised α → Bool
  | .ok _ => true
  | .error _ => false

/-- Conversion of an `int` to `size_t` (64 bits). -/
def to_size_t (n : Int) : Nat := (n % 2 ^ 64).toNat

/-- Conversion of a `size_t` to `int` (32 bits, two's complement). -/
def to_int (n : Nat) : Int := ((n : Int) + 2 ^ 31) % 2 ^ 32 - 2 ^ 31

/-- The value of `std::vector<T>::max_size()` for elements of `elem_bytes` bytes. -/
def max_size (elem_bytes : Nat) : Nat := (2 ^ 63 - 1) / elem_bytes

/-- The constructor `std::vector<T> dest(n)` called with an `int`: `n` value-initialised
elements, `std::length_error` when the converted count exceeds `max_size()`. -/
def vector_new (elem_bytes : Nat) (n : Int) : Except Raised (List Nat) :=
  if to_size_t n > max_size elem_bytes then .error .length_error
  else .ok (List.replicate (to_size_t n) 0)

/-- The call `dest.resize(n)` with an `int`: the first `n` elements are kept, missing ones are
value-initialised, `std::length_error` when the converted count exceeds `max_size()`. -/
def vector_resize (elem_bytes : Nat) (dest : List Nat) (n : Int) : Except Raised (List Nat) :=
  if to_size_t n > max_size elem_bytes then .error .length_error
  else .ok (dest.take (to_size_t n) ++ List.replicate (to_size_t n - dest.length) 0)

/-- What a read function of the C library hands back: its return value and the elements it
stored through the pointer `dest.data()`, from index 0 on. -/
structure ReadReply where
  rc : Int
  stored : List Nat
  deriving DecidableEq, Repr

/-- The buffer of the vector after the library stored `stored` through `dest.data()`.  The
vector keeps its size; a store past the end of the buffer is undefined behaviour in C++ and is
not represented. -/
def write_buffer (dest stored : List Nat) : List Nat :=
  stored.take dest.length ++ dest.drop stored.length

/-! ## Client operations of `Modbus` (lines 96-174) -/

section client
variable {σ : Type}

/-- The method `Modbus::read_coils`. -/
def read_coils (modbus_read_bits : Int → Int → σ → ReadReply × σ)
    (addr nb : Int) (ctx : σ) : Except Raised (List Nat) × σ :=
  match vector_new 1 nb with
  | .error e => (.error e, ctx)
  | .ok dest =>
    let (reply, ctx) := modbus_read_bits addr nb ctx
    let dest := write_buffer dest reply.stored
    if reply.rc = -1 then (.error (.Exception "读取线圈失败: "), ctx)
    else (vector_resize 1 dest reply.rc, ctx)

/-- The method `Modbus::read_discrete_inputs`. -/
def read_discrete_inputs (modbus_read_input_bits : Int → Int → σ → ReadReply × σ)
    (addr nb : Int) (ctx : σ) : Except Raised (List Nat) × σ :=
  match vector_new 1 nb with
  | .error e => (.error e, ctx)
  | .ok dest =>
    let (reply, ctx) := modbus_read_input_bits addr nb ctx
    let dest := write_buffer dest reply.stored
    if reply.rc = -1 then (.error (.Exception "读取离散输入失败: "), ctx)
    else (vector_resize 1 dest reply.rc, ctx)

/-- The method `Modbus::read_holding_registers`. -/
def read_holding_registers (modbus_read_registers : Int → Int → σ → ReadReply × σ)
    (addr nb : Int) (ctx : σ) : Except Raised (List Nat) × σ :=
  match vector_new 2 nb with
  | .error e => (.error e, ctx)
  | .ok dest =>
    let (reply, ctx) := modbus_read_registers addr nb ctx
    let dest := write_buffer dest reply.stored
    if reply.rc = -1 then (.error (.Exception "读取保持寄存器失败: "), ctx)
    else (vector_resize 2 dest reply.rc, ctx)

/-- The method `Modbus::read_input_registers`. -/
def read_input_registers (modbus_read_input_registers : Int → Int → σ → ReadReply × σ)
    (addr nb : Int) (ctx : σ) : Except Raised (List Nat) × σ :=
  match vector_new 2 nb with
  | .error e => (.error e, ctx)
  | .ok dest =>
    let (reply, ctx) := modbus_read_input_registers addr nb ctx
    let dest := write_buffer dest reply.stored
    if reply.rc = -1 then (.error (.Exception "读取输入寄存器失败: "), ctx)
    else (vector_resize 2 dest reply.rc, ctx)

/-- The method `Modbus::write_coil`; `TRUE` and `FALSE` are 1 and 0. -/
def write_coil (modbus_write_bit : Int → Int → σ → Int × σ)
    (addr : Int) (status : Bool) (ctx : σ) : Except Raised Unit × σ :=
  let (rc, ctx) := modbus_write_bit addr (if status then 1 else 0) ctx
  if rc = -1 then (.error (.Exception "写入线圈失败: "), ctx) else (.ok (), ctx)

/-- The method `Modbus::write_register`. -/
def write_register (modbus_write_register : Int → Nat → σ → Int × σ)
    (addr : Int) (value : Nat) (ctx : σ) : Except Raised Unit × σ :=
  let (rc, ctx) := modbus_write_register addr value ctx
  if rc = -1 then (.error (.Exception "写入寄存器失败: "), ctx) else (.ok (), ctx)

/-- The method `Modbus::write_coils`. -/
def write_coils (modbus_write_bits : Int → Int → List Nat → σ → Int × σ)
    (addr : Int) (src : List Nat) (ctx : σ) : Except Raised Unit × σ :=
  let (rc, ctx) := modbus_write_bits addr (to_int src.length) src ctx
  if rc = -1 then (.error (.Exception "写入多个线圈失败: "), ctx) else (.ok (), ctx)

/-- The method `Modbus::write_registers`. -/
def write_registers (modbus_write_registers : Int → Int → List Nat → σ → Int × σ)
    (addr : Int) (src : List Nat) (ctx : σ) : Except Raised Unit × σ :=
  let (rc, ctx) := modbus_write_registers addr (to_int src.length) src ctx
  if rc = -1 then (.error (.Exception "写入多个寄存器失败: "), ctx) else (.ok (), ctx)

/-- The method `Modbus::write_and_read_registers`. -/
def write_and_read_registers
    (modbus_write_and_read_registers : Int → Int → List Nat → Int → Int → σ → ReadReply × σ)
    (write_addr : Int) (src : List Nat) (read_addr read_nb : Int) (ctx : σ) :
    Except Raised (List Nat) × σ :=
  match vector_new 2 read_nb with
  | .error e => (.error e, ctx)
  | .ok dest =>
    let (reply, ctx) :=
      modbus_write_and_read_registers write_addr (to_int src.length) src read_addr read_nb ctx
    let dest := write_buffer dest reply.stored
    if reply.rc = -1 then (.error (.Exception "读写寄存器失败: "), ctx)
    else (vector_resize 2 dest reply.rc, ctx)

end client

/-! ## Contexts, `ModbusImpl`, `Modbus::close` (lines 18-78) -/

/-- Modelled from the spec: the states of a Connection (section 4.5), `Disconnected →
Connecting → Connected → Disconnected`; `Connecting` is passed through inside the blocking
`connect()` only.  The C library, which keeps the connection, is missing here. -/
inductive ConnState where
  | Disconnected
  | Connecting
  | Connected
  deriving DecidableEq, Repr

/-- Modelled from the spec: the C context `modbus_t` of the library, which is not part of the
wrapper.  Following the Connection of the data model it owns one transport endpoint (`s`, a
socket or serial handle, `-1` when it holds none), the slave/unit id and the TransactionId
counter of the TCP transport. -/
structure modbus_t where
  s : Int
  slave : Nat
  t_id : Nat
  deriving DecidableEq, Repr

/-- Modelled from the spec: a Connection is `Connected` exactly while it holds a transport
endpoint ("created on connect, destroyed/closed releases the transport endpoint").  The C
library is missing here. -/
def modbus_t.state (ctx : modbus_t) : ConnState :=
  if ctx.s = -1 then .Disconnected else .Connected

/-- Modelled from the spec: the library function `modbus_close`, "releases the transport
endpoint and returns to `Disconnected`".  The second component is the log of the endpoint
handles released so far. -/
def modbus_close (ctx : modbus_t) (released : List Int) : modbus_t × List Int :=
  if ctx.s = -1 then (ctx, released) else ({ ctx with s := -1 }, released ++ [ctx.s])

/-- Modelled from the spec: the library accessor `modbus_get_socket`, the endpoint handle the
context holds. -/
def modbus_get_socket (ctx : modbus_t) : Int := ctx.s

/-- Modelled from the spec: the library accessor `modbus_set_socket`, which makes the context
hold the given endpoint handle. -/
def modbus_set_socket (ctx : modbus_t) (s : Int) : modbus_t := { ctx with s := s }

/-- The class `ModbusImpl`: a nullable pointer to the context. -/
structure ModbusImpl where
  ctx : Option modbus_t
  deriving DecidableEq, Repr

/-- The destructor `ModbusImpl::~ModbusImpl`: a non-null context is closed and freed. -/
def ModbusImpl.destroy (impl : ModbusImpl) (released : List Int) : List Int :=
  match impl.ctx with
  | some ctx => (modbus_close ctx released).2
  | none => released

/-- The class `Modbus`: `impl_` is a `std::unique_ptr<ModbusImpl>`, null in a moved-from
object. -/
structure Modbus where
  impl_ : Option ModbusImpl
  deriving DecidableEq, Repr

/-- The constructor `Modbus::Modbus(std::unique_ptr<ModbusImpl>)`. -/
def Modbus.new (impl : Option ModbusImpl) : Except Raised Modbus :=
  match impl with
  | some ⟨some ctx⟩ => .ok ⟨some ⟨some ctx⟩⟩
  | _ => .error (.Exception "创建 Modbus 上下文失败")

/-- The connection state of a `Modbus` object; an object without a context holds no
endpoint. -/
def Modbus.state (m : Modbus) : ConnState :=
  match m.impl_ with
  | some ⟨some ctx⟩ => ctx.state
  | _ => .Disconnected

/-- The destructor `Modbus::~Modbus` (defaulted): destroys the owned `ModbusImpl`. -/
def Modbus.destroy (m : Modbus) (released : List Int) : List Int :=
  match m.impl_ with
  | some impl => impl.destroy released
  | none => released

/-! ## `ModbusTCPServer` (lines 198-250) -/

/-- The class `ServerImpl`: the context of the base class `ModbusImpl` (non-null once the
constructor of `ModbusTCPServer` has returned) and the listening socket. -/
structure ServerImpl where
  ctx : modbus_t
  socket : Int
  deriving DecidableEq, Repr

/-- The constructor `ModbusTCPServer::ModbusTCPServer`; the argument is what `modbus_new_tcp`
returned. -/
def ModbusTCPServer.new (ctx : Option modbus_t) : Except Raised ServerImpl :=
  match ctx with
  | some ctx => .ok { ctx := ctx, socket := -1 }
  | none => .error (.Exception "创建 TCP 服务器上下文失败")

/-- The destructor `ServerImpl::~ServerImpl`, followed by the one of its base class. -/
def ServerImpl.destroy (server : ServerImpl) (released : List Int) : List Int :=
  let released := if server.socket ≠ -1 then released ++ [server.socket] else released
  ModbusImpl.destroy ⟨some server.ctx⟩ released

section server
variable {σ : Type}

/-- The method `ModbusTCPServer::listen`. -/
def ModbusTCPServer.listen (modbus_tcp_listen : modbus_t → Int → σ → Int × σ)
    (server : ServerImpl) (nb_connection : Int) (net : σ) :
    Except Raised Unit × ServerImpl × σ :=
  let (socket, net) := modbus_tcp_listen server.ctx nb_connection net
  let server := { server with socket := socket }
  if server.socket = -1 then (.error (.Exception "监听失败: "), server, net)
  else (.ok (), server, net)

/-- The method `ModbusTCPServer::accept`.  `modbus_tcp_accept` receives the context and the
listening socket by pointer and returns its result together with both;
`modbus_new_tcp` stands for the call `modbus_new_tcp("0.0.0.0", DEFAULT_TCP_PORT)`. -/
def ModbusTCPServer.accept
    (modbus_tcp_accept : modbus_t → Int → σ → (Int × modbus_t × Int) × σ)
    (modbus_new_tcp : σ → Option modbus_t × σ)
    (server : ServerImpl) (net : σ) : Except Raised Modbus × ServerImpl × σ :=
  if server.socket = -1 then
    (.error (.Exception "服务器未监听，无法接受连接"), server, net)
  else
    let ((rc, ctx, socket), net) := modbus_tcp_accept server.ctx server.socket net
    let server : ServerImpl := { ctx := ctx, socket := socket }
    if rc = -1 then (.error (.Exception "接受连接失败: "), server, net)
    else
      let client_socket := modbus_get_socket server.ctx
      let (client_ctx, net) := modbus_new_tcp net
      match client_ctx with
      | none => (.error (.Exception "创建客户端上下文失败"), server, net)
      | some client_ctx =>
        let client_ctx := modbus_set_socket client_ctx client_socket
        (Modbus.new (some ⟨some client_ctx⟩), server, net)

/-- A call of the C library made by `receive_and_reply`. -/
inductive LibCall where
  | receive
  | reply (req_length : Int)
  deriving DecidableEq, Repr

/-- What `receive_and_reply` returns and leaves behind: the return value, the library calls it
made in order, the client connection and the mapping. -/
structure Served (κ μ : Type) where
  ret : Int
  calls : List LibCall
  client : κ
  mapping : μ

/-- The method `ModbusTCPServer::receive_and_reply`.  `modbus_receive` returns its result and
the query it stored; `modbus_reply` receives the query, its length and the mapping. -/
def ModbusTCPServer.receive_and_reply {κ μ : Type}
    (modbus_receive : κ → (Int × List Nat) × κ)
    (modbus_reply : List Nat → Int → κ → μ → Int × κ × μ)
    (client : κ) (mapping : μ) : Served κ μ :=
  let ((rc, query), client) := modbus_receive client
  if rc > 0 then
    let (_, client, mapping) := modbus_reply query rc client mapping
    { ret := rc, calls := [.receive, .reply rc], client := client, mapping := mapping }
  else if rc = -1 then
    { ret := -1, calls := [.receive], client := client, mapping := mapping }
  else
    { ret := rc, calls := [.receive], client := client, mapping := mapping }

end server

/-! ## `ModbusTCPServer::Mapping` (lines 252-278) -/

/-- The four tables of `modbus_mapping_t` the wrapper reaches: `tab_bits`, `tab_input_bits`
(elements `uint8_t`), `tab_registers`, `tab_input_registers` (elements `uint16_t`).  The
capacity of a table is the length of its list. -/
structure modbus_mapping_t where
  tab_bits : List Nat
  tab_input_bits : List Nat
  tab_registers : List Nat
  tab_input_registers : List Nat
  deriving DecidableEq, Repr

/-- The constructor `Mapping::Mapping`; the argument is what `modbus_mapping_new` returned. -/
def Mapping.new (mapping : Option modbus_mapping_t) : Except Raised modbus_mapping_t :=
  match mapping with
  | some m => .ok m
  | none => .error (.Exception "创建数据映射失败: ")

/-- The tables of a mapping. -/
inductive Table where
  | tab_bits
  | tab_input_bits
  | tab_registers
  | tab_input_registers
  deriving DecidableEq, Repr

/-- The reference `tab[addr]` an accessor returns: a table and an offset into it. -/
structure Ref where
  table : Table
  index : Int
  deriving DecidableEq, Repr

/-- The method `Mapping::coil`: `tab_bits[addr]`, computed without any check. -/
def Mapping.coil (_m : modbus_mapping_t) (addr : Int) : Except Raised Ref :=
  .ok ⟨.tab_bits, addr⟩

/-- The method `Mapping::discrete_input`: `tab_input_bits[addr]`. -/
def Mapping.discrete_input (_m : modbus_mapping_t) (addr : Int) : Except Raised Ref :=
  .ok ⟨.tab_input_bits, addr⟩

/-- The method `Mapping::holding_register`: `tab_registers[addr]`. -/
def Mapping.holding_register (_m : modbus_mapping_t) (addr : Int) : Except Raised Ref :=
  .ok ⟨.tab_registers, addr⟩

/-- The method `Mapping::input_register`: `tab_input_registers[addr]`. -/
def Mapping.input_register (_m : modbus_mapping_t) (addr : Int) : Except Raised Ref :=
  .ok ⟨.tab_input_registers, addr⟩

/-- The array behind a table. -/
def Mapping.tab (m : modbus_mapping_t) : Table → List Nat
  | .tab_bits => m.tab_bits
  | .tab_input_bits => m.tab_input_bits
  | .tab_registers => m.tab_registers
  | .tab_input_registers => m.tab_input_registers

/-- The number of values of the element type of a table: `uint8_t` or `uint16_t`. -/
def Table.range : Table → Nat
  | .tab_bits => 2 ^ 8
  | .tab_input_bits => 2 ^ 8
  | .tab_registers => 2 ^ 16
  | .tab_input_registers => 2 ^ 16

/-- The reference designates an element of its array. -/
def Mapping.inBounds (m : modbus_mapping_t) (r : Ref) : Bool :=
  decide (0 ≤ r.index ∧ r.index < ((Mapping.tab m r.table).length : Int))

/-- Reading through a reference.  `none` stands for the undefined behaviour of an access
outside the array. -/
def Mapping.load (m : modbus_mapping_t) (r : Ref) : Option Nat :=
  if Mapping.inBounds m r then (Mapping.tab m r.table)[r.index.toNat]? else none

/-- Modelled from the spec: a 16-bit field of the wire format (`addr:16`, `count:16`), most
significant byte first as in the Modbus standard.  The C library is missing here. -/
def be16 (v : Nat) : List Nat := [v / 256 % 256, v % 256]

/-- Modelled from the spec: the payload `registers:16×N`, each register most significant byte
first.  The C library is missing here. -/
def regsToBytes : List Nat → List Nat
  | [] => []
  | v :: vs => v / 256 % 256 :: v % 256 :: regsToBytes vs

/-- Modelled from the spec: the registers of a payload `registers:16×N`.  The C library is
missing here. -/
def bytesToRegs : List Nat → List Nat
  | hi :: lo :: rest => (hi * 256 + lo) :: bytesToRegs rest
  | _ => []

/-- Modelled from the spec: the packed-bits encoding, "bit i of coil/discrete-input group maps
to bit (i mod 8) of byte (i / 8), least-significant bit first; byte_count = ceil(count/8)".
The elements of a bit table are `uint8_t`, non-zero for ON.  The C library is missing here. -/
def packBits (bits : List Nat) : List Nat :=
  (List.range ((bits.length + 7) / 8)).map fun j =>
    (List.range 8).foldr (fun k acc => (if bits.getD (8 * j + k) 0 = 0 then 0 else 1) + 2 * acc) 0

/-- Modelled from the spec: the first `count` bits of a packed-bits payload, as `uint8_t`
values 0 and 1.  The C library is missing here. -/
def unpackBits (count : Nat) (bytes : List Nat) : List Nat :=
  (List.range count).map fun i => bytes.getD (i / 8) 0 / 2 ^ (i % 8) % 2

/-- Modelled from the spec: the AddressSpace read of section 4.1, which "validates
`count >= 1` and the address range against capacity" (`addr + count <= capacity`); `none` is
the `OutOfRange` error.  The C library is missing here. -/
def getRange (tab : List Nat) (addr count : Nat) : Option (List Nat) :=
  if 1 ≤ count ∧ addr + count ≤ tab.length then some ((tab.drop addr).take count) else none

/-- Modelled from the spec: the AddressSpace write of section 4.1, with the same validation
as the read; it touches the addressed elements only.  The C library is missing here. -/
def setRange (tab : List Nat) (addr : Nat) (values : List Nat) : Option (List Nat) :=
  if 1 ≤ values.length ∧ addr + values.length ≤ tab.length then
    some (tab.take addr ++ values ++ tab.drop (addr + values.length))
  else none

/-- Modelled from the spec: `get_holding_registers(addr, count)` of section 4.1.  The C
library is missing here. -/
def get_holding_registers (m : modbus_mapping_t) (addr count : Nat) : Option (List Nat) :=
  getRange m.tab_registers addr count

/-- Modelled from the spec: `set_holding_registers(addr, values)` of section 4.1.  The C
library is missing here. -/
def set_holding_registers (m : modbus_mapping_t) (addr : Nat) (values : List Nat) :
    Option modbus_mapping_t :=
  (setRange m.tab_registers addr values).map fun tab => { m with tab_registers := tab }

/-- Modelled from the spec: `set_coils(addr, values)` of section 4.1.  The C library is
missing here. -/
def set_coils (m : modbus_mapping_t) (addr : Nat) (values : List Nat) :
    Option modbus_mapping_t :=
  (setRange m.tab_bits addr values).map fun tab => { m with tab_bits := tab }

/-- Modelled from the spec: the ceiling of a PDU, "253 bytes PDU excluding unit/CRC
framing".  The C library is missing here. -/
def MAX_PDU_LENGTH : Nat := 253

/-- Modelled from the spec: the wire representation of a Modbus exception, "the high bit of
the function code set (function | 0x80) and a one-byte exception-code payload".  The C library
is missing here. -/
def exceptionPDU (function code : Nat) : List Nat := [function + 0x80, code]

/-- Modelled from the spec: the server side of Read Coils / Read Discrete Inputs (0x01, 0x02),
request `addr:16, count:16 (count ≤ 2000)`, response `byte_count:8, packed bits`.  `none` is a
malformed PDU, which gets no reply.  The C library is missing here. -/
def serveReadBits (function : Nat) (tab payload : List Nat) : Option (List Nat) :=
  match payload with
  | [ah, al, ch, cl] =>
    let addr := ah * 256 + al
    let count := ch * 256 + cl
    if count > 2000 then some (exceptionPDU function 0x03)
    else
      match getRange tab addr count with
      | none => some (exceptionPDU function 0x02)
      | some bits => some (function :: (count + 7) / 8 :: packBits bits)
  | _ => none

/-- Modelled from the spec: the server side of Read Holding Registers / Read Input Registers
(0x03, 0x04), request `addr:16, count:16 (count ≤ 125)`, response
`byte_count:8, registers:16×N`.  The C library is missing here. -/
def serveReadRegisters (function : Nat) (tab payload : List Nat) : Option (List Nat) :=
  match payload with
  | [ah, al, ch, cl] =>
    let addr := ah * 256 + al
    let count := ch * 256 + cl
    if count > 125 then some (exceptionPDU function 0x03)
    else
      match getRange tab addr count with
      | none => some (exceptionPDU function 0x02)
      | some regs => some (function :: 2 * count :: regsToBytes regs)
  | _ => none

/-- Modelled from the spec: the server side of Write Single Coil (0x05), request
`addr:16, value:16 (0xFF00 or 0x0000)`, response an echo of the request.  The C library is
missing here. -/
def serveWriteSingleCoil (m : modbus_mapping_t) (payload : List Nat) :
    modbus_mapping_t × Option (List Nat) :=
  match payload with
  | [ah, al, vh, vl] =>
    let addr := ah * 256 + al
    let value := vh * 256 + vl
    if value ≠ 0xFF00 ∧ value ≠ 0x0000 then (m, some (exceptionPDU 0x05 0x03))
    else
      match set_coils m addr [if value = 0xFF00 then 1 else 0] with
      | none => (m, some (exceptionPDU 0x05 0x02))
      | some m => (m, some (0x05 :: payload))
  | _ => (m, none)

/-- Modelled from the spec: the server side of Write Single Register (0x06), request
`addr:16, value:16`, response an echo of the request.  The C library is missing here. -/
def serveWriteSingleRegister (m : modbus_mapping_t) (payload : List Nat) :
    modbus_mapping_t × Option (List Nat) :=
  match payload with
  | [ah, al, vh, vl] =>
    match set_holding_registers m (ah * 256 + al) [vh * 256 + vl] with
    | none => (m, some (exceptionPDU 0x06 0x02))
    | some m => (m, some (0x06 :: payload))
  | _ => (m, none)

/-- Modelled from the spec: the server side of Write Multiple Coils (0x0F), request
`addr:16, count:16, byte_count:8, packed bits`, response `addr:16, count:16`.  The payload
length has to match the declared count and byte count exactly.  The C library is missing
here. -/
def serveWriteCoils (m : modbus_mapping_t) (payload : List Nat) :
    modbus_mapping_t × Option (List Nat) :=
  match payload with
  | ah :: al :: ch :: cl :: bc :: data =>
    let addr := ah * 256 + al
    let count := ch * 256 + cl
    if bc = (count + 7) / 8 ∧ data.length = bc then
      match set_coils m addr (unpackBits count data) with
      | none => (m, some (exceptionPDU 0x0F 0x02))
      | some m => (m, some [0x0F, ah, al, ch, cl])
    else (m, none)
  | _ => (m, none)

/-- Modelled from the spec: the server side of Write Multiple Registers (0x10), request
`addr:16, count:16, byte_count:8, registers`, response `addr:16, count:16`.  The payload
length has to match the declared count and byte count exactly.  The C library is missing
here. -/
def serveWriteRegisters (m : modbus_mapping_t) (payload : List Nat) :
    modbus_mapping_t × Option (List Nat) :=
  match payload with
  | ah :: al :: ch :: cl :: bc :: data =>
    let addr := ah * 256 + al
    let count := ch * 256 + cl
    if bc = 2 * count ∧ data.length = bc then
      match set_holding_registers m addr (bytesToRegs data) with
      | none => (m, some (exceptionPDU 0x10 0x02))
      | some m => (m, some [0x10, ah, al, ch, cl])
    else (m, none)
  | _ => (m, none)

/-- Modelled from the spec: the server side of Read/Write Multiple Registers (0x17), request
`read_addr:16, read_count:16, write_addr:16, write_count:16, byte_count:8, write_registers`,
response `byte_count:8, read_registers`.  The write is applied before the read is taken, and
nothing is applied when either range is rejected.  The read count is bounded as for function
0x03, so that the response fits a PDU.  The C library is missing here. -/
def serveReadWriteRegisters (m : modbus_mapping_t) (payload : List Nat) :
    modbus_mapping_t × Option (List Nat) :=
  match payload with
  | rah :: ral :: rch :: rcl :: wah :: wal :: wch :: wcl :: bc :: data =>
    let read_addr := rah * 256 + ral
    let read_count := rch * 256 + rcl
    let write_addr := wah * 256 + wal
    let write_count := wch * 256 + wcl
    if bc = 2 * write_count ∧ data.length = bc then
      if read_count > 125 then (m, some (exceptionPDU 0x17 0x03))
      else
        match set_holding_registers m write_addr (bytesToRegs data) with
        | none => (m, some (exceptionPDU 0x17 0x02))
        | some written =>
          match get_holding_registers written read_addr read_count with
          | none => (m, some (exceptionPDU 0x17 0x02))
          | some regs => (written, some (0x17 :: 2 * read_count :: regsToBytes regs))
    else (m, none)
  | _ => (m, none)

/-- Modelled from the spec: the server decode / apply / encode step of section 4.3 on one
request PDU.  The result is the mapping afterwards and the response PDU, `none` when the
request is dropped without a reply; an unsupported function code is answered with the
exception "Illegal Function" (0x01).  The C library is missing here. -/
def servePDU (m : modbus_mapping_t) (pdu : List Nat) : modbus_mapping_t × Option (List Nat) :=
  match pdu with
  | [] => (m, none)
  | function :: payload =>
    if function = 0x01 then (m, serveReadBits 0x01 m.tab_bits payload)
    else if function = 0x02 then (m, serveReadBits 0x02 m.tab_input_bits payload)
    else if function = 0x03 then (m, serveReadRegisters 0x03 m.tab_registers payload)
    else if function = 0x04 then (m, serveReadRegisters 0x04 m.tab_input_registers payload)
    else if function = 0x05 then serveWriteSingleCoil m payload
    else if function = 0x06 then serveWriteSingleRegister m payload
    else if function = 0x0F then serveWriteCoils m payload
    else if function = 0x10 then serveWriteRegisters m payload
    else if function = 0x17 then serveReadWriteRegisters m payload
    else (m, some (exceptionPDU function 0x01))

/-- Modelled from the spec: the TCP encoding of section 4.2, the 7-byte header
`[transaction_id:16][protocol_id:16=0][length:16][unit_id:8]` followed by the PDU, with
length field = PDU length + 1.  The C library is missing here. -/
def tcpEncode (transaction_id unit_id : Nat) (pdu : List Nat) : List Nat :=
  be16 transaction_id ++ be16 0 ++ be16 (pdu.length + 1) ++ [unit_id % 256] ++ pdu

/-- Modelled from the spec: the TCP decoding of section 4.2 on one complete frame: the
transaction id, the unit id and the PDU; `none` (`FrameError`) when the protocol id is not 0,
the length field does not match or the PDU exceeds its ceiling.  The C library is missing
here. -/
def tcpDecode : List Nat → Option (Nat × Nat × List Nat)
  | t1 :: t2 :: p1 :: p2 :: l1 :: l2 :: u :: pdu =>
    if p1 * 256 + p2 = 0 ∧ l1 * 256 + l2 = pdu.length + 1 ∧ pdu.length ≤ MAX_PDU_LENGTH then
      some (t1 * 256 + t2, u, pdu)
    else none
  | _ => none

/-- Modelled from the spec: the server's end of an accepted connection, the byte-stream
capability of section 6: the frames the transport still delivers (none left: the peer has
closed the stream) and the frames written back.  The C library is missing here. -/
structure ServerConn where
  inbound : List (List Nat)
  outbound : List (List Nat)
  deriving DecidableEq, Repr

/-- Modelled from the spec: the length validation of the server decode of section 4.3,
"payload length matches the declared count/byte_count exactly (mismatch → `MalformedPDU`)".
A PDU with an unsupported function code passes; it is answered by an exception.  The C
library is missing here. -/
def wellFormedPDU (pdu : List Nat) : Bool :=
  match pdu with
  | [] => false
  | function :: payload =>
    if function = 0x01 ∨ function = 0x02 ∨ function = 0x03 ∨ function = 0x04
        ∨ function = 0x05 ∨ function = 0x06 then
      decide (payload.length = 4)
    else if function = 0x0F then
      match payload with
      | _ :: _ :: ch :: cl :: bc :: data =>
        decide (bc = (ch * 256 + cl + 7) / 8 ∧ data.length = bc)
      | _ => false
    else if function = 0x10 then
      match payload with
      | _ :: _ :: ch :: cl :: bc :: data =>
        decide (bc = 2 * (ch * 256 + cl) ∧ data.length = bc)
      | _ => false
    else if function = 0x17 then
      match payload with
      | _ :: _ :: _ :: _ :: _ :: _ :: wch :: wcl :: bc :: data =>
        decide (bc = 2 * (wch * 256 + wcl) ∧ data.length = bc)
      | _ => false
    else true

/-- Modelled from the spec: the library function `modbus_receive`, the "read one frame" step
of section 4.6.  It returns the length of the request and the request; `-1` on transport
close; `0` for a malformed frame (`FrameError`, `MalformedPDU`), which is dropped without a
reply.  The C library is missing here. -/
def modbus_receive (client : ServerConn) : (Int × List Nat) × ServerConn :=
  match client.inbound with
  | [] => ((-1, []), client)
  | frame :: rest =>
    match tcpDecode frame with
    | some (_, _, pdu) =>
      if wellFormedPDU pdu then (((frame.length : Int), frame), { client with inbound := rest })
      else ((0, []), { client with inbound := rest })
    | none => ((0, []), { client with inbound := rest })

/-- Modelled from the spec: the library function `modbus_reply`, the decode / apply / encode /
write-back step of section 4.6 on a request `modbus_receive` has accepted.  It returns the
length of the reply written; `-1`, without a reply, when the query is no well-formed
request.  The C library is missing here. -/
def modbus_reply (query : List Nat) (rc : Int) (client : ServerConn) (m : modbus_mapping_t) :
    Int × ServerConn × modbus_mapping_t :=
  match tcpDecode (query.take rc.toNat) with
  | none => (-1, client, m)
  | some (transaction_id, unit_id, pdu) =>
    match servePDU m pdu with
    | (m, none) => (-1, client, m)
    | (m, some response) =>
      let frame := tcpEncode transaction_id unit_id response
      ((frame.length : Int), { client with outbound := client.outbound ++ [frame] }, m)

/-- Modelled from the spec: the failures of a client exchange, the error taxonomy of section
7.  The C library, which reports all of them as `-1`, is missing here. -/
inductive ExchangeError where
  | NotConnected
  | Timeout
  | FrameError
  | MalformedPDU
  | TransactionMismatch
  | ModbusException (code : Nat)
  | UnexpectedFunction
  deriving DecidableEq, Repr

/-- Modelled from the spec: a client context together with the server it is connected to,
the Mapping of the server, which serves each request of the client by one call of
`receive_and_reply`.  The C library and the transport are missing here. -/
structure Link where
  ctx : modbus_t
  server : modbus_mapping_t
  deriving DecidableEq, Repr

/-- Modelled from the spec: the request/response exchange of a Connection (sections 4.2 and
4.5).  It is valid from `Connected` only, increments the TransactionId, sends the framed
request, which the server serves by one call of `receive_and_reply`, and yields the PDU of the
reply; no reply is a `Timeout`.  The C library is missing here. -/
def exchange (request : List Nat) (link : Link) : Except ExchangeError (List Nat) × Link :=
  if link.ctx.state ≠ .Connected then (.error .NotConnected, link)
  else if request.length > MAX_PDU_LENGTH then (.error .MalformedPDU, link)
  else
    let transaction_id := (link.ctx.t_id + 1) % 65536
    let ctx := { link.ctx with t_id := transaction_id }
    let served := ModbusTCPServer.receive_and_reply modbus_receive modbus_reply
      { inbound := [tcpEncode transaction_id ctx.slave request], outbound := [] } link.server
    let link : Link := { ctx := ctx, server := served.mapping }
    match served.client.outbound with
    | [] => (.error .Timeout, link)
    | reply :: _ =>
      match tcpDecode reply with
      | none => (.error .FrameError, link)
      | some (echoed, _, pdu) =>
        if echoed ≠ transaction_id then (.error .TransactionMismatch, link)
        else (.ok pdu, link)

/-- Modelled from the spec: the first step of the client decode of section 4.4: the payload
of a response to the given function, `ModbusException` for the exception variant of the
function code, `UnexpectedFunction` for any other code.  The C library is missing here. -/
def checkFunction (function : Nat) (response : List Nat) : Except ExchangeError (List Nat) :=
  match response with
  | [] => .error .MalformedPDU
  | code :: payload =>
    if code = function + 0x80 then
      match payload with
      | [exception_code] => .error (.ModbusException exception_code)
      | _ => .error .MalformedPDU
    else if code ≠ function then .error .UnexpectedFunction
    else .ok payload

/-- Modelled from the spec: the value a C `int` takes in a 16-bit field of the wire format
(`addr:16`, `count:16`), its low 16 bits.  The C library is missing here. -/
def wire16 (x : Int) : Nat := (x % 65536).toNat

/-- Modelled from the spec: the library function `modbus_read_registers` (function 0x03): it
returns the number of registers read, which is the requested count, and stores them; `-1` on
every failure.  The C library is missing here. -/
def modbus_read_registers (addr nb : Int) (link : Link) : ReadReply × Link :=
  let count := wire16 nb
  match exchange (0x03 :: be16 (wire16 addr) ++ be16 count) link with
  | (.error _, link) => (⟨-1, []⟩, link)
  | (.ok response, link) =>
    match checkFunction 0x03 response with
    | .ok (byte_count :: data) =>
      if byte_count = 2 * count ∧ data.length = byte_count then
        (⟨(count : Int), bytesToRegs data⟩, link)
      else (⟨-1, []⟩, link)
    | _ => (⟨-1, []⟩, link)

/-- Modelled from the spec: the library function `modbus_write_registers` (function 0x10): it
returns the number of registers written, `-1` on every failure.  The C library is missing
here. -/
def modbus_write_registers (addr nb : Int) (src : List Nat) (link : Link) : Int × Link :=
  let count := wire16 nb
  let request := 0x10 :: be16 (wire16 addr) ++ be16 count ++ [2 * count % 256]
    ++ regsToBytes (src.take count)
  match exchange request link with
  | (.error _, link) => (-1, link)
  | (.ok response, link) =>
    match checkFunction 0x10 response with
    | .ok payload =>
      if payload = be16 (wire16 addr) ++ be16 count then ((count : Int), link) else (-1, link)
    | .error _ => (-1, link)

/-- Modelled from the spec: the library function `modbus_write_and_read_registers` (function
0x17): it returns the number of registers read and stores them; `-1` on every failure.  The C
library is missing here. -/
def modbus_write_and_read_registers (write_addr write_nb : Int) (src : List Nat)
    (read_addr read_nb : Int) (link : Link) : ReadReply × Link :=
  let write_count := wire16 write_nb
  let read_count := wire16 read_nb
  let request := 0x17 :: be16 (wire16 read_addr) ++ be16 read_count
    ++ be16 (wire16 write_addr) ++ be16 write_count ++ [2 * write_count % 256]
    ++ regsToBytes (src.take write_count)
  match exchange request link with
  | (.error _, link) => (⟨-1, []⟩, link)
  | (.ok response, link) =>
    match checkFunction 0x17 response with
    | .ok (byte_count :: data) =>
      if byte_count = 2 * read_count ∧ data.length = byte_count then
        (⟨(read_count : Int), bytesToRegs data⟩, link)
      else (⟨-1, []⟩, link)
    | _ => (⟨-1, []⟩, link)

/-! ## Auxiliary definitions for the statements -/

/-- The value lies in the range of a 32-bit C `int`. -/
def isInt (x : Int) : Prop := -2 ^ 31 ≤ x ∧ x < 2 ^ 31

instance (x : Int) : Decidable (isInt x) := by unfold isInt; exact inferInstance

/-- The result of a read operation is sized to the count `rc` the library call reported: a
vector it returns has exactly `rc` elements, hence at most `nb` when `rc ≤ nb`. -/
def SizedToReport (r : Except Raised (List Nat)) (rc nb : Int) : Prop :=
  ∀ v, r = .ok v → (v.length : Int) = rc ∧ (rc ≤ nb → (v.length : Int) ≤ nb)

/-- The operation raises `modbus::Exception` exactly when the library call returned `-1`. -/
def RaisesIffFailed {α : Type} (r : Except Raised α) (rc : Int) : Prop :=
  isException r = true ↔ rc = -1

/-- Modelled from the spec: the state of the network collaborator of section 6, the handle it
hands out for the next endpoint it creates.  The operating system is missing here. -/
structure Net where
  next : Int
  deriving DecidableEq, Repr

/-- Modelled from the spec: the library function `modbus_tcp_listen`, which binds the
listening endpoint and returns its handle.  The C library is missing here. -/
def modbus_tcp_listen (_ctx : modbus_t) (_nb_connection : Int) (net : Net) : Int × Net :=
  (net.next, { next := net.next + 1 })

/-- Modelled from the spec: the library function `modbus_tcp_accept`: the network
collaborator "hands the core one accepted stream per client"; the library stores the handle of
that stream in the context it is called on (where `accept` fetches it with
`modbus_get_socket`), returns it, and keeps the listening socket.  The C library is missing
here. -/
def modbus_tcp_accept (ctx : modbus_t) (socket : Int) (net : Net) :
    (Int × modbus_t × Int) × Net :=
  ((net.next, { ctx with s := net.next }, socket), { next := net.next + 1 })

/-- Modelled from the spec: the library function `modbus_new_tcp`, a fresh context that holds
no endpoint yet.  The C library is missing here. -/
def modbus_new_tcp (net : Net) : Option modbus_t × Net :=
  (some { s := -1, slave := 255, t_id := 0 }, net)

/-- Modelled from the spec: the write-multiple-registers limit.  The request PDU of function
0x10 (function code, `addr:16`, `count:16`, `byte_count:8`, registers) has to fit the PDU
ceiling, which leaves room for 123 registers.  The C library is missing here. -/
def MODBUS_MAX_WRITE_REGISTERS : Nat := (MAX_PDU_LENGTH - 6) / 2

/-- Modelled from the spec: the limit on the registers written by function 0x17.  The request
PDU (function code, four 16-bit fields, `byte_count:8`, registers) has to fit the PDU
ceiling, which leaves room for 121 registers.  The C library is missing here. -/
def MODBUS_MAX_WR_WRITE_REGISTERS : Nat := (MAX_PDU_LENGTH - 10) / 2

/-- Modelled from the spec: the limit on the registers read by functions 0x03, 0x04 and
0x17, `count ≤ 125`.  The C library is missing here. -/
def MODBUS_MAX_READ_REGISTERS : Nat := 125

/-- Every holding register of the mapping holds a value of its element type `uint16_t`. -/
def registersInRange (m : modbus_mapping_t) : Prop := ∀ v ∈ m.tab_registers, v < 65536

instance (m : modbus_mapping_t) : Decidable (registersInRange m) := by
  unfold registersInRange; exact inferInstance

/-- A call the application makes on a `ModbusTCPServer` object. -/
inductive ServerCall where
  | listen (nb_connection : Int)
  | accept
  deriving DecidableEq, Repr

/-- A server in the course of its life: the object, the state of the transport, and what the
most recent `listen()` did (`none` while `listen()` has never been called). -/
structure ServerRun (σ : Type) where
  server : ServerImpl
  net : σ
  last_listen : Option (Except Raised Unit)

/-- One call on the server.  An exception leaves the object as the throwing method left it;
the application goes on with it. -/
def ModbusTCPServer.call {σ : Type} (modbus_tcp_listen : modbus_t → Int → σ → Int × σ)
    (modbus_tcp_accept : modbus_t → Int → σ → (Int × modbus_t × Int) × σ)
    (modbus_new_tcp : σ → Option modbus_t × σ)
    (r : ServerRun σ) : ServerCall → ServerRun σ
  | .listen nb_connection =>
    { server := (ModbusTCPServer.listen modbus_tcp_listen r.server nb_connection r.net).2.1,
      net := (ModbusTCPServer.listen modbus_tcp_listen r.server nb_connection r.net).2.2,
      last_listen :=
        some (ModbusTCPServer.listen modbus_tcp_listen r.server nb_connection r.net).1 }
  | .accept =>
    { server := (ModbusTCPServer.accept modbus_tcp_accept modbus_new_tcp r.server r.net).2.1,
      net := (ModbusTCPServer.accept modbus_tcp_accept modbus_new_tcp r.server r.net).2.2,
      last_listen := r.last_listen }

/-- A sequence of calls on the server, in order. -/
def ModbusTCPServer.calls {σ : Type} (modbus_tcp_listen : modbus_t → Int → σ → Int × σ)
    (modbus_tcp_accept : modbus_t → Int → σ → (Int × modbus_t × Int) × σ)
    (modbus_new_tcp : σ → Option modbus_t × σ)
    (r : ServerRun σ) (cs : List ServerCall) : ServerRun σ :=
  cs.foldl (ModbusTCPServer.call modbus_tcp_listen modbus_tcp_accept modbus_new_tcp) r

/-- The server is not listening: `listen()` has never been called, or the last `listen()`
failed. -/
def ServerRun.notListening {σ : Type} (r : ServerRun σ) : Prop :=
  r.last_listen = none ∨ ∃ e, r.last_listen = some (.error e)

/-! # Theorems -/

/-! ## `std::vector` -/

theorem to_size_t_of_nonneg (n : Int) (h0 : 0 ≤ n) (h1 : n < 2 ^ 64) :
    (to_size_t n : Int) = n := by
  unfold to_size_t
  rw [Int.emod_eq_of_lt h0 h1]
  exact Int.toNat_of_nonneg h0

theorem to_size_t_of_neg (n : Int) (h0 : n < 0) (h1 : -2 ^ 31 ≤ n) :
    2 ^ 63 ≤ to_size_t n := by
  unfold to_size_t
  have h : n % 2 ^ 64 = n + 2 ^ 64 := by
    rw [← Int.add_emod_self]
    exact Int.emod_eq_of_lt (by omega) (by omega)
  rw [h]
  omega

theorem max_size_lt (e : Nat) : max_size e < 2 ^ 63 := by
  unfold max_size
  exact lt_of_le_of_lt (Nat.div_le_self _ _) (by norm_num)

theorem vector_resize_length (e : Nat) (dest v : List Nat) (n : Int)
    (h : vector_resize e dest n = .ok v) : v.length = to_size_t n := by
  unfold vector_resize at h
  split at h
  · cases h
  · cases h
    simp only [List.length_append, List.length_take, List.length_replicate]
    omega

theorem vector_resize_nonneg (e : Nat) (dest v : List Nat) (n : Int) (hn : isInt n)
    (h : vector_resize e dest n = .ok v) : 0 ≤ n := by
  by_contra hneg
  have h1 := to_size_t_of_neg n (by omega) hn.1
  have h2 := max_size_lt e
  unfold vector_resize at h
  rw [if_pos (by omega)] at h
  cases h

theorem vector_resize_count (e : Nat) (dest v : List Nat) (n : Int) (hn : isInt n)
    (h : vector_resize e dest n = .ok v) : (v.length : Int) = n := by
  have h0 := vector_resize_nonneg e dest v n hn h
  rw [vector_resize_length e dest v n h]
  exact to_size_t_of_nonneg n h0 (lt_trans hn.2 (by norm_num))

theorem vector_resize_ok (e : Nat) (he : e = 1 ∨ e = 2) (dest : List Nat) (n : Int)
    (h0 : 0 ≤ n) (hn : isInt n) : returnsNormally (vector_resize e dest n) = true := by
  have h1 := to_size_t_of_nonneg n h0 (lt_trans hn.2 (by norm_num))
  have h2 : to_size_t n < 2 ^ 31 := by
    have := hn.2
    omega
  have h3 : 2 ^ 31 ≤ max_size e := by
    rcases he with rfl | rfl <;> decide
  unfold vector_resize
  rw [if_neg (by omega)]
  rfl

theorem vector_resize_not_exception (e : Nat) (dest : List Nat) (n : Int) :
    isException (vector_resize e dest n) = false := by
  unfold vector_resize
  split <;> rfl

theorem vector_new_ok (e : Nat) (he : e = 1 ∨ e = 2) (n : Int) (h0 : 0 ≤ n) (hn : isInt n) :
    vector_new e n = .ok (List.replicate (to_size_t n) 0) := by
  have h1 := to_size_t_of_nonneg n h0 (lt_trans hn.2 (by norm_num))
  have h2 : to_size_t n < 2 ^ 31 := by
    have := hn.2
    omega
  have h3 : 2 ^ 31 ≤ max_size e := by
    rcases he with rfl | rfl <;> decide
  unfold vector_new
  rw [if_neg (by omega)]

/-! ## The client operations -/

section client_lemmas
variable {σ : Type}

theorem read_coils_eq (lib : Int → Int → σ → ReadReply × σ) (addr nb : Int) (ctx : σ)
    (h0 : 0 ≤ nb) (hn : isInt nb) :
    (read_coils lib addr nb ctx).1 =
      if (lib addr nb ctx).1.rc = -1 then .error (.Exception "读取线圈失败: ")
      else vector_resize 1 (write_buffer (List.replicate (to_size_t nb) 0)
        (lib addr nb ctx).1.stored) (lib addr nb ctx).1.rc := by
  unfold read_coils
  rw [vector_new_ok 1 (Or.inl rfl) nb h0 hn]
  dsimp only
  split <;> rfl

theorem read_coils_ok (lib : Int → Int → σ → ReadReply × σ) (addr nb : Int) (ctx : σ)
    (v : List Nat) (h : (read_coils lib addr nb ctx).1 = .ok v) :
    ∃ dest, vector_resize 1 dest (lib addr nb ctx).1.rc = .ok v := by
  unfold read_coils at h
  split at h
  · cases h
  · dsimp only at h
    split at h
    · cases h
    · exact ⟨_, h⟩

theorem read_discrete_inputs_eq (lib : Int → Int → σ → ReadReply × σ) (addr nb : Int) (ctx : σ)
    (h0 : 0 ≤ nb) (hn : isInt nb) :
    (read_discrete_inputs lib addr nb ctx).1 =
      if (lib addr nb ctx).1.rc = -1 then .error (.Exception "读取离散输入失败: ")
      else vector_resize 1 (write_buffer (List.replicate (to_size_t nb) 0)
        (lib addr nb ctx).1.stored) (lib addr nb ctx).1.rc := by
  unfold read_discrete_inputs
  rw [vector_new_ok 1 (Or.inl rfl) nb h0 hn]
  dsimp only
  split <;> rfl

theorem read_discrete_inputs_ok (lib : Int → Int → σ → ReadReply × σ) (addr nb : Int) (ctx : σ)
    (v : List Nat) (h : (read_discrete_inputs lib addr nb ctx).1 = .ok v) :
    ∃ dest, vector_resize 1 dest (lib addr nb ctx).1.rc = .ok v := by
  unfold read_discrete_inputs at h
  split at h
  · cases h
  · dsimp only at h
    split at h
    · cases h
    · exact ⟨_, h⟩

theorem read_holding_registers_eq (lib : Int → Int → σ → ReadReply × σ) (addr nb : Int) (ctx : σ)
    (h0 : 0 ≤ nb) (hn : isInt nb) :
    (read_holding_registers lib addr nb ctx).1 =
      if (lib addr nb ctx).1.rc = -1 then .error (.Exception "读取保持寄存器失败: ")
      else vector_resize 2 (write_buffer (List.replicate (to_size_t nb) 0)
        (lib addr nb ctx).1.stored) (lib addr nb ctx).1.rc := by
  unfold read_holding_registers
  rw [vector_new_ok 2 (Or.inr rfl) nb h0 hn]
  dsimp only
  split <;> rfl

theorem read_holding_registers_ok (lib : Int → Int → σ → ReadReply × σ) (addr nb : Int) (ctx : σ)
    (v : List Nat) (h : (read_holding_registers lib addr nb ctx).1 = .ok v) :
    ∃ dest, vector_resize 2 dest (lib addr nb ctx).1.rc = .ok v := by
  unfold read_holding_registers at h
  split at h
  · cases h
  · dsimp only at h
    split at h
    · cases h
    · exact ⟨_, h⟩

theorem read_input_registers_eq (lib : Int → Int → σ → ReadReply × σ) (addr nb : Int) (ctx : σ)
    (h0 : 0 ≤ nb) (hn : isInt nb) :
    (read_input_registers lib addr nb ctx).1 =
      if (lib addr nb ctx).1.rc = -1 then .error (.Exception "读取输入寄存器失败: ")
      else vector_resize 2 (write_buffer (List.replicate (to_size_t nb) 0)
        (lib addr nb ctx).1.stored) (lib addr nb ctx).1.rc := by
  unfold read_input_registers
  rw [vector_new_ok 2 (Or.inr rfl) nb h0 hn]
  dsimp only
  split <;> rfl

theorem read_input_registers_ok (lib : Int → Int → σ → ReadReply × σ) (addr nb : Int) (ctx : σ)
    (v : List Nat) (h : (read_input_registers lib addr nb ctx).1 = .ok v) :
    ∃ dest, vector_resize 2 dest (lib addr nb ctx).1.rc = .ok v := by
  unfold read_input_registers at h
  split at h
  · cases h
  · dsimp only at h
    split at h
    · cases h
    · exact ⟨_, h⟩

theorem write_and_read_registers_eq
    (lib : Int → Int → List Nat → Int → Int → σ → ReadReply × σ)
    (write_addr : Int) (src : List Nat) (read_addr read_nb : Int) (ctx : σ)
    (h0 : 0 ≤ read_nb) (hn : isInt read_nb) :
    (write_and_read_registers lib write_addr src read_addr read_nb ctx).1 =
      if (lib write_addr (to_int src.length) src read_addr read_nb ctx).1.rc = -1 then
        .error (.Exception "读写寄存器失败: ")
      else vector_resize 2 (write_buffer (List.replicate (to_size_t read_nb) 0)
        (lib write_addr (to_int src.length) src read_addr read_nb ctx).1.stored)
        (lib write_addr (to_int src.length) src read_addr read_nb ctx).1.rc := by
  unfold write_and_read_registers
  rw [vector_new_ok 2 (Or.inr rfl) read_nb h0 hn]
  dsimp only
  split <;> rfl

theorem write_and_read_registers_ok
    (lib : Int → Int → List Nat → Int → Int → σ → ReadReply × σ)
    (write_addr : Int) (src : List Nat) (read_addr read_nb : Int) (ctx : σ)
    (v : List Nat)
    (h : (write_and_read_registers lib write_addr src read_addr read_nb ctx).1 = .ok v) :
    ∃ dest, vector_resize 2 dest
      (lib write_addr (to_int src.length) src read_addr read_nb ctx).1.rc = .ok v := by
  unfold write_and_read_registers at h
  split at h
  · cases h
  · dsimp only at h
    split at h
    · cases h
    · exact ⟨_, h⟩

theorem read_shape (e : Nat) (he : e = 1 ∨ e = 2) (dest : List Nat) (rc : Int) (what : String)
    (r : Except Raised (List Nat))
    (hr : r = if rc = -1 then .error (.Exception what) else vector_resize e dest rc) :
    (isException r = true ↔ rc = -1) ∧ (0 ≤ rc → isInt rc → returnsNormally r = true) := by
  subst hr
  by_cases h : rc = -1
  · rw [if_pos h]
    refine ⟨⟨fun _ => h, fun _ => rfl⟩, fun h0 _ => ?_⟩
    omega
  · rw [if_neg h]
    refine ⟨⟨fun hx => ?_, fun hx => absurd hx h⟩, fun h0 hn => vector_resize_ok e he dest rc h0 hn⟩
    rw [vector_resize_not_exception] at hx
    cases hx

theorem write_shape (rc : Int) (what : String) (r : Except Raised Unit)
    (hr : r = if rc = -1 then .error (.Exception what) else .ok ()) :
    (isException r = true ↔ rc = -1) ∧ (rc ≠ -1 → returnsNormally r = true) := by
  subst hr
  by_cases h : rc = -1
  · rw [if_pos h]
    exact ⟨⟨fun _ => h, fun _ => rfl⟩, fun hx => absurd h hx⟩
  · rw [if_neg h]
    refine ⟨⟨fun hx => ?_, fun hx => absurd hx h⟩, fun _ => rfl⟩
    cases hx

theorem write_coil_eq (lib : Int → Int → σ → Int × σ) (addr : Int) (status : Bool) (ctx : σ) :
    (write_coil lib addr status ctx).1 =
      if (lib addr (if status then 1 else 0) ctx).1 = -1 then
        .error (.Exception "写入线圈失败: ") else .ok () := by
  unfold write_coil
  dsimp only
  exact apply_ite Prod.fst _ _ _

theorem write_register_eq (lib : Int → Nat → σ → Int × σ) (addr : Int) (value : Nat)
    (ctx : σ) :
    (write_register lib addr value ctx).1 =
      if (lib addr value ctx).1 = -1 then .error (.Exception "写入寄存器失败: ")
      else .ok () := by
  unfold write_register
  dsimp only
  exact apply_ite Prod.fst _ _ _

theorem write_coils_eq (lib : Int → Int → List Nat → σ → Int × σ) (addr : Int)
    (src : List Nat) (ctx : σ) :
    (write_coils lib addr src ctx).1 =
      if (lib addr (to_int src.length) src ctx).1 = -1 then
        .error (.Exception "写入多个线圈失败: ") else .ok () := by
  unfold write_coils
  dsimp only
  exact apply_ite Prod.fst _ _ _

theorem write_registers_eq (lib : Int → Int → List Nat → σ → Int × σ) (addr : Int)
    (src : List Nat) (ctx : σ) :
    (write_registers lib addr src ctx).1 =
      if (lib addr (to_int src.length) src ctx).1 = -1 then
        .error (.Exception "写入多个寄存器失败: ") else .ok () := by
  unfold write_registers
  dsimp only
  exact apply_ite Prod.fst _ _ _

end client_lemmas

theorem sized_of_resize (e : Nat) (r : Except Raised (List Nat)) (rc nb : Int)
    (hrc : isInt rc) (h : ∀ v, r = .ok v → ∃ dest, vector_resize e dest rc = .ok v) :
    SizedToReport r rc nb := by
  intro v hv
  obtain ⟨dest, hd⟩ := h v hv
  have hc := vector_resize_count e dest v rc hrc hd
  exact ⟨hc, fun hle => by omega⟩

/-- C1 (counterexample): asked for 2 holding registers while the library call reports 5
elements, `read_holding_registers` returns normally with a vector of 5 elements, more than
the requested count. -/
theorem read_result_exceeds_request :
    (read_holding_registers (fun _ _ (s : Unit) => ((⟨5, [7, 8]⟩ : ReadReply), s)) 0 2 ()).1
        = .ok [7, 8, 0, 0, 0]
      ∧ ¬ ([7, 8, 0, 0, 0].length ≤ 2) := by
  constructor
  · decide
  · decide

/-- C1 (amended): whenever `read_coils`, `read_discrete_inputs`, `read_holding_registers`,
`read_input_registers` or `write_and_read_registers` returns normally, the returned vector has
exactly as many elements as the underlying library call reported (its return value, an
`int`); it has at most `nb` (`read_nb`) elements whenever the library reported at most that
many. -/
theorem read_result_sized_to_reported_count {σ : Type}
    (rd : Int → Int → σ → ReadReply × σ)
    (wr : Int → Int → List Nat → Int → Int → σ → ReadReply × σ)
    (addr nb write_addr : Int) (src : List Nat) (ctx : σ)
    (hrd : isInt (rd addr nb ctx).1.rc)
    (hwr : isInt (wr write_addr (to_int src.length) src addr nb ctx).1.rc) :
    SizedToReport (read_coils rd addr nb ctx).1 (rd addr nb ctx).1.rc nb
      ∧ SizedToReport (read_discrete_inputs rd addr nb ctx).1 (rd addr nb ctx).1.rc nb
      ∧ SizedToReport (read_holding_registers rd addr nb ctx).1 (rd addr nb ctx).1.rc nb
      ∧ SizedToReport (read_input_registers rd addr nb ctx).1 (rd addr nb ctx).1.rc nb
      ∧ SizedToReport (write_and_read_registers wr write_addr src addr nb ctx).1
          (wr write_addr (to_int src.length) src addr nb ctx).1.rc nb :=
  ⟨sized_of_resize 1 _ _ _ hrd (read_coils_ok rd addr nb ctx),
   sized_of_resize 1 _ _ _ hrd (read_discrete_inputs_ok rd addr nb ctx),
   sized_of_resize 2 _ _ _ hrd (read_holding_registers_ok rd addr nb ctx),
   sized_of_resize 2 _ _ _ hrd (read_input_registers_ok rd addr nb ctx),
   sized_of_resize 2 _ _ _ hwr (write_and_read_registers_ok wr write_addr src addr nb ctx)⟩

/-- C1 (witness): the library reports 3 of 4 requested coils and 2 of 4 requested
registers; the vectors returned have 3 and 2 elements. -/
theorem read_result_sized_to_reported_count_witness :
    isInt 3 ∧ isInt 2
      ∧ (read_coils (fun _ _ (s : Unit) => ((⟨3, [1, 0, 1]⟩ : ReadReply), s)) 0 4 ()).1
          = .ok [1, 0, 1]
      ∧ (([1, 0, 1] : List Nat).length : Int) = 3
      ∧ (write_and_read_registers
          (fun _ _ _ _ _ (s : Unit) => ((⟨2, [10, 20]⟩ : ReadReply), s)) 7 [5] 0 4 ()).1
          = .ok [10, 20]
      ∧ (([10, 20] : List Nat).length : Int) = 2 :=
  have h := read_result_sized_to_reported_count
    (fun _ _ (s : Unit) => ((⟨3, [1, 0, 1]⟩ : ReadReply), s))
    (fun _ _ _ _ _ (s : Unit) => ((⟨2, [10, 20]⟩ : ReadReply), s)) 0 4 7 [5] ()
    (by decide) (by decide)
  ⟨by decide, by decide, by decide, (h.1 [1, 0, 1] (by decide)).1, by decide,
    (h.2.2.2.2 [10, 20] (by decide)).1⟩

/-- C2 (counterexample): the library call behind `read_coils` returns `-2`, a value other
than `-1`; the operation neither returns normally nor raises `modbus::Exception`, it ends in
the `std::length_error` of `dest.resize(rc)`. -/
theorem read_neither_returns_nor_raises_exception :
    ((⟨-2, []⟩ : ReadReply).rc ≠ -1)
      ∧ (read_coils (fun _ _ (s : Unit) => ((⟨-2, []⟩ : ReadReply), s)) 0 1 ()).1
          = .error .length_error
      ∧ returnsNormally
          (read_coils (fun _ _ (s : Unit) => ((⟨-2, []⟩ : ReadReply), s)) 0 1 ()).1 = false := by
  refine ⟨by decide, by decide, by decide⟩

/-- C2 (amended): every client operation raises `modbus::Exception` if and only if the
underlying library call returns `-1` (for the read operations: called with a count
`0 ≤ nb`, for which the result vector is built and the library call is made).  The write
operations return normally for every other return value; the read operations return normally
for every return value `rc ≥ 0`. -/
theorem exception_iff_library_failure {σ : Type}
    (rd : Int → Int → σ → ReadReply × σ)
    (wrd : Int → Int → List Nat → Int → Int → σ → ReadReply × σ)
    (wbit : Int → Int → σ → Int × σ) (wreg : Int → Nat → σ → Int × σ)
    (wmany : Int → Int → List Nat → σ → Int × σ)
    (addr nb write_addr : Int) (status : Bool) (value : Nat) (src : List Nat) (ctx : σ)
    (h0 : 0 ≤ nb) (hn : isInt nb) :
    (RaisesIffFailed (read_coils rd addr nb ctx).1 (rd addr nb ctx).1.rc
        ∧ (0 ≤ (rd addr nb ctx).1.rc → isInt (rd addr nb ctx).1.rc →
            returnsNormally (read_coils rd addr nb ctx).1 = true))
      ∧ (RaisesIffFailed (read_discrete_inputs rd addr nb ctx).1 (rd addr nb ctx).1.rc
        ∧ (0 ≤ (rd addr nb ctx).1.rc → isInt (rd addr nb ctx).1.rc →
            returnsNormally (read_discrete_inputs rd addr nb ctx).1 = true))
      ∧ (RaisesIffFailed (read_holding_registers rd addr nb ctx).1 (rd addr nb ctx).1.rc
        ∧ (0 ≤ (rd addr nb ctx).1.rc → isInt (rd addr nb ctx).1.rc →
            returnsNormally (read_holding_registers rd addr nb ctx).1 = true))
      ∧ (RaisesIffFailed (read_input_registers rd addr nb ctx).1 (rd addr nb ctx).1.rc
        ∧ (0 ≤ (rd addr nb ctx).1.rc → isInt (rd addr nb ctx).1.rc →
            returnsNormally (read_input_registers rd addr nb ctx).1 = true))
      ∧ (RaisesIffFailed (write_and_read_registers wrd write_addr src addr nb ctx).1
            (wrd write_addr (to_int src.length) src addr nb ctx).1.rc
        ∧ (0 ≤ (wrd write_addr (to_int src.length) src addr nb ctx).1.rc →
            isInt (wrd write_addr (to_int src.length) src addr nb ctx).1.rc →
            returnsNormally (write_and_read_registers wrd write_addr src addr nb ctx).1 = true))
      ∧ (RaisesIffFailed (write_coil wbit addr status ctx).1
            (wbit addr (if status then 1 else 0) ctx).1
        ∧ ((wbit addr (if status then 1 else 0) ctx).1 ≠ -1 →
            returnsNormally (write_coil wbit addr status ctx).1 = true))
      ∧ (RaisesIffFailed (write_register wreg addr value ctx).1 (wreg addr value ctx).1
        ∧ ((wreg addr value ctx).1 ≠ -1 →
            returnsNormally (write_register wreg addr value ctx).1 = true))
      ∧ (RaisesIffFailed (write_coils wmany addr src ctx).1
            (wmany addr (to_int src.length) src ctx).1
        ∧ ((wmany addr (to_int src.length) src ctx).1 ≠ -1 →
            returnsNormally (write_coils wmany addr src ctx).1 = true))
      ∧ (RaisesIffFailed (write_registers wmany addr src ctx).1
            (wmany addr (to_int src.length) src ctx).1
        ∧ ((wmany addr (to_int src.length) src ctx).1 ≠ -1 →
            returnsNormally (write_registers wmany addr src ctx).1 = true)) :=
  ⟨read_shape 1 (Or.inl rfl) _ _ _ _ (read_coils_eq rd addr nb ctx h0 hn),
   read_shape 1 (Or.inl rfl) _ _ _ _ (read_discrete_inputs_eq rd addr nb ctx h0 hn),
   read_shape 2 (Or.inr rfl) _ _ _ _ (read_holding_registers_eq rd addr nb ctx h0 hn),
   read_shape 2 (Or.inr rfl) _ _ _ _ (read_input_registers_eq rd addr nb ctx h0 hn),
   read_shape 2 (Or.inr rfl) _ _ _ _
     (write_and_read_registers_eq wrd write_addr src addr nb ctx h0 hn),
   write_shape _ _ _ (write_coil_eq wbit addr status ctx),
   write_shape _ _ _ (write_register_eq wreg addr value ctx),
   write_shape _ _ _ (write_coils_eq wmany addr src ctx),
   write_shape _ _ _ (write_registers_eq wmany addr src ctx)⟩

/-- C2 (witness): a library whose read calls return 2 and whose write calls return `-1`:
`read_coils` returns normally, `write_register` raises `modbus::Exception`. -/
theorem exception_iff_library_failure_witness :
    (0 : Int) ≤ 2 ∧ isInt 2
      ∧ returnsNormally
          (read_coils (fun _ _ (s : Unit) => ((⟨2, [1, 1]⟩ : ReadReply), s)) 0 2 ()).1 = true
      ∧ isException
          (write_register (fun _ _ (s : Unit) => ((-1 : Int), s)) 0 7 ()).1 = true :=
  have h := exception_iff_library_failure
    (fun _ _ (s : Unit) => ((⟨2, [1, 1]⟩ : ReadReply), s))
    (fun _ _ _ _ _ (s : Unit) => ((⟨2, [1, 1]⟩ : ReadReply), s))
    (fun _ _ (s : Unit) => ((-1 : Int), s)) (fun _ _ (s : Unit) => ((-1 : Int), s))
    (fun _ _ _ (s : Unit) => ((-1 : Int), s)) 0 2 0 true 7 [] () (by decide) (by decide)
  ⟨by decide, by decide, h.1.2 (by decide) (by decide), h.2.2.2.2.2.2.1.1.mpr rfl⟩

/-! ## `Mapping` accessors -/

theorem load_in_bounds (m : modbus_mapping_t) (t : Table) (addr : Int)
    (h0 : 0 ≤ addr) (h1 : addr < ((Mapping.tab m t).length : Int)) :
    Mapping.load m ⟨t, addr⟩ = some ((Mapping.tab m t).getD addr.toNat 0) := by
  have hlt : addr.toNat < (Mapping.tab m t).length := by omega
  unfold Mapping.load Mapping.inBounds
  simp only [h0, h1, and_self, decide_True, if_true]
  rw [List.getD_eq_getElem?_getD, List.getElem?_eq_getElem hlt]
  rfl

theorem load_out_of_bounds (m : modbus_mapping_t) (t : Table) (addr : Int)
    (h : ¬ (0 ≤ addr ∧ addr < ((Mapping.tab m t).length : Int))) :
    Mapping.load m ⟨t, addr⟩ = none := by
  unfold Mapping.load Mapping.inBounds
  simp only [h, decide_False, Bool.false_eq_true, if_false]

/-- C5 (counterexample): on a mapping with 20 coils the accesses `coil(20)` and `coil(-1)`
do not fail with an error: the accessor returns the reference `tab_bits[addr]` all the same,
and that reference designates no element of the table. -/
theorem accessor_out_of_range_is_no_error :
    Mapping.coil ⟨List.replicate 20 0, [], [], []⟩ 20 = .ok ⟨.tab_bits, 20⟩
      ∧ Mapping.load ⟨List.replicate 20 0, [], [], []⟩ ⟨.tab_bits, 20⟩ = none
      ∧ Mapping.coil ⟨List.replicate 20 0, [], [], []⟩ (-1) = .ok ⟨.tab_bits, -1⟩
      ∧ Mapping.load ⟨List.replicate 20 0, [], [], []⟩ ⟨.tab_bits, -1⟩ = none := by
  refine ⟨by decide, by decide, by decide, by decide⟩

/-- C5 (amended): `Mapping::coil`, `discrete_input`, `holding_register` and `input_register`
check nothing and never fail: for every address they return the reference `tab[addr]` into
their own table.  That reference yields an element, the one at index `addr`, exactly for
`0 <= addr < capacity`; for any other address it designates no element (the access is
undefined behaviour, not an address-range error). -/
theorem accessor_yields_element_iff_in_capacity (m : modbus_mapping_t) (addr : Int) :
    (Mapping.coil m addr = .ok ⟨.tab_bits, addr⟩
        ∧ Mapping.discrete_input m addr = .ok ⟨.tab_input_bits, addr⟩
        ∧ Mapping.holding_register m addr = .ok ⟨.tab_registers, addr⟩
        ∧ Mapping.input_register m addr = .ok ⟨.tab_input_registers, addr⟩)
      ∧ (Mapping.load m ⟨.tab_bits, addr⟩ =
          if 0 ≤ addr ∧ addr < (m.tab_bits.length : Int)
          then some (m.tab_bits.getD addr.toNat 0) else none)
      ∧ (Mapping.load m ⟨.tab_input_bits, addr⟩ =
          if 0 ≤ addr ∧ addr < (m.tab_input_bits.length : Int)
          then some (m.tab_input_bits.getD addr.toNat 0) else none)
      ∧ (Mapping.load m ⟨.tab_registers, addr⟩ =
          if 0 ≤ addr ∧ addr < (m.tab_registers.length : Int)
          then some (m.tab_registers.getD addr.toNat 0) else none)
      ∧ (Mapping.load m ⟨.tab_input_registers, addr⟩ =
          if 0 ≤ addr ∧ addr < (m.tab_input_registers.length : Int)
          then some (m.tab_input_registers.getD addr.toNat 0) else none) := by
  refine ⟨⟨rfl, rfl, rfl, rfl⟩, ?_, ?_, ?_, ?_⟩
  · by_cases h : 0 ≤ addr ∧ addr < (m.tab_bits.length : Int)
    · rw [if_pos h]; exact load_in_bounds m .tab_bits addr h.1 h.2
    · rw [if_neg h]; exact load_out_of_bounds m .tab_bits addr h
  · by_cases h : 0 ≤ addr ∧ addr < (m.tab_input_bits.length : Int)
    · rw [if_pos h]; exact load_in_bounds m .tab_input_bits addr h.1 h.2
    · rw [if_neg h]; exact load_out_of_bounds m .tab_input_bits addr h
  · by_cases h : 0 ≤ addr ∧ addr < (m.tab_registers.length : Int)
    · rw [if_pos h]; exact load_in_bounds m .tab_registers addr h.1 h.2
    · rw [if_neg h]; exact load_out_of_bounds m .tab_registers addr h
  · by_cases h : 0 ≤ addr ∧ addr < (m.tab_input_registers.length : Int)
    · rw [if_pos h]; exact load_in_bounds m .tab_input_registers addr h.1 h.2
    · rw [if_neg h]; exact load_out_of_bounds m .tab_input_registers addr h

/-- C9 (the code at the failing input): the receive step yields a request of 12 bytes and
the reply step fails with `-1`; `receive_and_reply` returns 12, the value it returns when
the reply was sent, and reports no failure. -/
theorem reply_failure_is_not_reported :
    (ModbusTCPServer.receive_and_reply
        (fun (c : Unit) => (((12 : Int), [0, 1, 0, 0, 0, 6, 1, 3, 0, 0, 0, 1]), c))
        (fun _ _ c (m : Unit) => ((-1 : Int), c, m)) () ()).ret = 12
      ∧ (ModbusTCPServer.receive_and_reply
        (fun (c : Unit) => (((12 : Int), [0, 1, 0, 0, 0, 6, 1, 3, 0, 0, 0, 1]), c))
        (fun _ _ c (m : Unit) => ((11 : Int), c, m)) () ()).ret = 12 := by
  exact ⟨by decide, by decide⟩

/-! ## `ModbusTCPServer::listen` and `accept` -/

theorem accept_shares_endpoint {σ : Type}
    (acc : modbus_t → Int → σ → (Int × modbus_t × Int) × σ)
    (new_tcp : σ → Option modbus_t × σ) (server server' : ServerImpl) (net net' : σ)
    (client : Modbus)
    (h : ModbusTCPServer.accept acc new_tcp server net = (.ok client, server', net')) :
    ∃ ctx, client.impl_ = some ⟨some ctx⟩ ∧ ctx.s = server'.ctx.s := by
  unfold ModbusTCPServer.accept at h
  split at h
  · cases h
  · dsimp only at h
    split at h
    · cases h
    · split at h
      · cases h
      · rename_i c hc
        simp only [Modbus.new, Prod.mk.injEq, Except.ok.injEq] at h
        obtain ⟨h1, h2, _⟩ := h
        subst h1 h2
        exact ⟨_, rfl, rfl⟩

/-- C10 (the code at the failing input): a server listens (endpoint 3) and accepts one
client (endpoint 4).  The context of the returned Connection and the server's own context
both hold endpoint 4, and destroying the Connection and then the server releases endpoint 4
twice. -/
theorem accepted_endpoint_is_held_twice :
    ModbusTCPServer.listen modbus_tcp_listen ⟨⟨-1, 255, 0⟩, -1⟩ 1 ⟨3⟩
        = (.ok (), ⟨⟨-1, 255, 0⟩, 3⟩, ⟨4⟩)
      ∧ ModbusTCPServer.accept modbus_tcp_accept modbus_new_tcp ⟨⟨-1, 255, 0⟩, 3⟩ ⟨4⟩
        = (.ok ⟨some ⟨some ⟨4, 255, 0⟩⟩⟩, ⟨⟨4, 255, 0⟩, 3⟩, ⟨5⟩)
      ∧ modbus_get_socket (⟨⟨4, 255, 0⟩, 3⟩ : ServerImpl).ctx = 4
      ∧ ServerImpl.destroy ⟨⟨4, 255, 0⟩, 3⟩
          (Modbus.destroy ⟨some ⟨some ⟨4, 255, 0⟩⟩⟩ []) = [4, 3, 4]
      ∧ ([4, 3, 4] : List Int).count 4 = 2 := by
  refine ⟨by decide, by decide, by decide, by decide, by decide⟩

/-! ## The wire format -/

theorem wire16_natCast (n : Nat) : wire16 (n : Int) = n % 65536 := by
  unfold wire16
  omega

theorem to_int_small (n : Nat) (h : n < 2 ^ 31) : to_int n = (n : Int) := by
  unfold to_int
  omega

theorem be16_value (v : Nat) : v / 256 % 256 * 256 + v % 256 = v % 65536 := by
  omega

theorem regsToBytes_length (vs : List Nat) : (regsToBytes vs).length = 2 * vs.length := by
  induction vs with
  | nil => rfl
  | cons v vs ih => simp only [regsToBytes, List.length_cons, ih]; omega

theorem bytesToRegs_regsToBytes (vs : List Nat) (h : ∀ v ∈ vs, v < 65536) :
    bytesToRegs (regsToBytes vs) = vs := by
  induction vs with
  | nil => rfl
  | cons v vs ih =>
    have hv : v < 65536 := h v (List.mem_cons_self v vs)
    have hvs : ∀ w ∈ vs, w < 65536 := fun w hw => h w (List.mem_cons_of_mem v hw)
    simp only [regsToBytes, bytesToRegs, ih hvs, List.cons.injEq, and_true]
    omega

theorem tcpDecode_tcpEncode (t u : Nat) (pdu : List Nat) (h : pdu.length ≤ 253) :
    tcpDecode (tcpEncode t u pdu) = some (t % 65536, u % 256, pdu) := by
  have h1 : (pdu.length + 1) / 256 % 256 * 256 + (pdu.length + 1) % 256 = pdu.length + 1 := by
    omega
  have h2 : t / 256 % 256 * 256 + t % 256 = t % 65536 := be16_value t
  simp only [tcpEncode, be16, List.cons_append, List.nil_append, tcpDecode, MAX_PDU_LENGTH]
  rw [if_pos ⟨by norm_num, h1, h⟩, h2]

theorem tcpEncode_length (t u : Nat) (pdu : List Nat) :
    (tcpEncode t u pdu).length = pdu.length + 7 := by
  simp only [tcpEncode, be16, List.cons_append, List.nil_append, List.length_cons]

/-! ## The AddressSpace -/

theorem getRange_length (tab regs : List Nat) (addr count : Nat)
    (h : getRange tab addr count = some regs) : regs.length = count := by
  unfold getRange at h
  split at h
  · cases h
    simp only [List.length_take, List.length_drop]
    omega
  · cases h

theorem getRange_mem (tab regs : List Nat) (addr count : Nat)
    (h : getRange tab addr count = some regs) : ∀ v ∈ regs, v ∈ tab := by
  unfold getRange at h
  split at h
  · cases h
    intro v hv
    exact List.mem_of_mem_drop (List.mem_of_mem_take hv)
  · cases h

theorem setRange_ok (tab values : List Nat) (addr : Nat) (h1 : 1 ≤ values.length)
    (h2 : addr + values.length ≤ tab.length) :
    setRange tab addr values
      = some (tab.take addr ++ values ++ tab.drop (addr + values.length)) := by
  unfold setRange
  rw [if_pos ⟨h1, h2⟩]

theorem setRange_length (tab values : List Nat) (addr : Nat)
    (h2 : addr + values.length ≤ tab.length) :
    (tab.take addr ++ values ++ tab.drop (addr + values.length)).length = tab.length := by
  simp only [List.length_append, List.length_take, List.length_drop]
  omega

theorem getRange_ok (tab : List Nat) (addr count : Nat) (h1 : 1 ≤ count)
    (h2 : addr + count ≤ tab.length) :
    getRange tab addr count = some ((tab.drop addr).take count) := by
  unfold getRange
  rw [if_pos ⟨h1, h2⟩]

theorem written_range_reads_back (tab values : List Nat) (addr : Nat)
    (h2 : addr + values.length ≤ tab.length) :
    ((tab.take addr ++ values ++ tab.drop (addr + values.length)).drop addr).take
      values.length = values := by
  have hlen : (tab.take addr).length = addr := by
    rw [List.length_take]
    omega
  rw [List.append_assoc, List.drop_append_eq_append_drop, hlen, Nat.sub_self, List.drop_zero,
    List.drop_of_length_le (le_of_eq hlen), List.nil_append, List.take_append_eq_append_take,
    List.take_length, Nat.sub_self, List.take_zero, List.append_nil]

/-! ## The server's reply step and the exchange -/

theorem wellFormed_read_registers (addr count : Nat) :
    wellFormedPDU (0x03 :: be16 addr ++ be16 count) = true := by
  simp [wellFormedPDU, be16]

theorem wellFormed_write_registers (addr : Nat) (values : List Nat)
    (hlim : values.length ≤ 127) :
    wellFormedPDU (0x10 :: be16 addr ++ be16 values.length ++ [2 * values.length % 256]
        ++ regsToBytes values) = true := by
  have e2 : values.length / 256 % 256 * 256 + values.length % 256 = values.length := by omega
  have e3 : 2 * values.length % 256 = 2 * values.length := by omega
  simp only [wellFormedPDU, be16, List.cons_append, List.nil_append, e2, e3,
    regsToBytes_length]
  simp

theorem wellFormed_read_write_registers (ra rn wa : Nat) (src : List Nat)
    (hlim : src.length ≤ 127) :
    wellFormedPDU (0x17 :: be16 ra ++ be16 rn ++ be16 wa ++ be16 src.length
        ++ [2 * src.length % 256] ++ regsToBytes src) = true := by
  have e2 : src.length / 256 % 256 * 256 + src.length % 256 = src.length := by omega
  have e3 : 2 * src.length % 256 = 2 * src.length := by omega
  simp only [wellFormedPDU, be16, List.cons_append, List.nil_append, e2, e3,
    regsToBytes_length]
  simp

theorem servePDU_write_registers (m : modbus_mapping_t) (addr : Nat) (values : List Nat)
    (ha : addr < 65536) (h1 : 1 ≤ values.length) (hlim : values.length ≤ 127)
    (hcap : addr + values.length ≤ m.tab_registers.length)
    (hval : ∀ v ∈ values, v < 65536) :
    servePDU m (0x10 :: be16 addr ++ be16 values.length ++ [2 * values.length % 256]
        ++ regsToBytes values)
      = ({ m with tab_registers :=
            m.tab_registers.take addr ++ values ++ m.tab_registers.drop (addr + values.length) },
          some (0x10 :: be16 addr ++ be16 values.length)) := by
  have e1 : addr / 256 % 256 * 256 + addr % 256 = addr := by omega
  have e2 : values.length / 256 % 256 * 256 + values.length % 256 = values.length := by omega
  have e3 : 2 * values.length % 256 = 2 * values.length := by omega
  simp only [servePDU, be16, List.cons_append, List.nil_append, serveWriteRegisters, e1, e2, e3,
    regsToBytes_length, bytesToRegs_regsToBytes values hval, set_holding_registers,
    setRange_ok m.tab_registers values addr h1 hcap]
  simp

theorem servePDU_read_registers (m : modbus_mapping_t) (addr count : Nat)
    (ha : addr < 65536) (h1 : 1 ≤ count) (hlim : count ≤ 125)
    (hcap : addr + count ≤ m.tab_registers.length) :
    servePDU m (0x03 :: be16 addr ++ be16 count)
      = (m, some (0x03 :: 2 * count :: regsToBytes ((m.tab_registers.drop addr).take count)))
    := by
  have e1 : addr / 256 % 256 * 256 + addr % 256 = addr := by omega
  have e2 : count / 256 % 256 * 256 + count % 256 = count := by omega
  simp only [servePDU, be16, List.cons_append, List.nil_append, serveReadRegisters, e1, e2,
    getRange_ok m.tab_registers addr count h1 hcap]
  simp
  omega

theorem exchange_served (link : Link) (request response : List Nat) (m' : modbus_mapping_t)
    (hconn : link.ctx.state = .Connected)
    (hreq : request.length ≤ 253) (hrsp : response.length ≤ 253)
    (hwf : wellFormedPDU request = true)
    (hserve : servePDU link.server request = (m', some response)) :
    exchange request link
      = (.ok response, ⟨{ link.ctx with t_id := (link.ctx.t_id + 1) % 65536 }, m'⟩) := by
  have hpos : (0 : Int) < ((tcpEncode ((link.ctx.t_id + 1) % 65536) link.ctx.slave
      request).length : Int) := by
    rw [tcpEncode_length]
    omega
  simp only [exchange, hconn, ne_eq, not_true_eq_false, if_false, MAX_PDU_LENGTH,
    ModbusTCPServer.receive_and_reply, modbus_receive, tcpDecode_tcpEncode _ _ request hreq,
    hwf, gt_iff_lt, hpos, if_true, modbus_reply, Int.toNat_ofNat, List.take_length, hserve,
    List.nil_append, tcpDecode_tcpEncode _ _ response hrsp, Nat.mod_mod]
  simp
  omega

theorem natCast_ne_neg_one (n : Nat) : ((n : Int) = -1) = False := by
  apply eq_false
  omega

theorem read_into_vector (regs : List Nat) (h : regs.length < 2 ^ 31) :
    vector_new 2 (regs.length : Int) = .ok (List.replicate regs.length 0)
      ∧ vector_resize 2 (write_buffer (List.replicate regs.length 0) regs) (regs.length : Int)
          = .ok regs := by
  have hint : isInt (regs.length : Int) := by
    unfold isInt
    omega
  have hs : to_size_t (regs.length : Int) = regs.length := by
    have := to_size_t_of_nonneg (regs.length : Int) (by omega) (by omega)
    omega
  have hm : 2 ^ 31 ≤ max_size 2 := by decide
  constructor
  · rw [vector_new_ok 2 (Or.inr rfl) _ (by omega) hint, hs]
  · unfold vector_resize write_buffer
    rw [hs, if_neg (by omega)]
    simp

theorem modbus_write_registers_ok (ctx : modbus_t) (m : modbus_mapping_t) (addr : Nat)
    (values : List Nat) (hconn : ctx.state = .Connected) (h1 : 1 ≤ values.length)
    (hlim : values.length ≤ 123) (hcap : addr + values.length ≤ m.tab_registers.length)
    (hval : ∀ v ∈ values, v < 65536) :
    modbus_write_registers (addr : Int) (to_int values.length) values ⟨ctx, m⟩
      = ((values.length : Int),
          ⟨{ ctx with t_id := (ctx.t_id + 1) % 65536 },
           { m with tab_registers := m.tab_registers.take (addr % 65536) ++ values
              ++ m.tab_registers.drop (addr % 65536 + values.length) }⟩) := by
  have hn : wire16 (to_int values.length) = values.length := by
    rw [to_int_small _ (by omega), wire16_natCast]
    omega
  have hserve := servePDU_write_registers m (addr % 65536) values (by omega) h1 (by omega)
    (by omega) hval
  have hex := exchange_served ⟨ctx, m⟩ _ _ _ hconn
    (by simp [be16, regsToBytes_length]; omega) (by simp [be16])
    (wellFormed_write_registers _ values (by omega)) hserve
  simp only [modbus_write_registers, hn, wire16_natCast, List.take_length, hex, checkFunction]
  simp [be16]

theorem modbus_read_registers_ok (ctx : modbus_t) (m : modbus_mapping_t) (addr count : Nat)
    (hconn : ctx.state = .Connected) (h1 : 1 ≤ count) (hlim : count ≤ 125)
    (hcap : addr + count ≤ m.tab_registers.length)
    (hval : ∀ v ∈ (m.tab_registers.drop (addr % 65536)).take count, v < 65536) :
    modbus_read_registers (addr : Int) (count : Int) ⟨ctx, m⟩
      = (⟨(count : Int), (m.tab_registers.drop (addr % 65536)).take count⟩,
          ⟨{ ctx with t_id := (ctx.t_id + 1) % 65536 }, m⟩) := by
  have hn : wire16 (count : Int) = count := by
    rw [wire16_natCast]
    omega
  have hserve := servePDU_read_registers m (addr % 65536) count (by omega) h1 hlim (by omega)
  have hlen : ((m.tab_registers.drop (addr % 65536)).take count).length = count := by
    simp only [List.length_take, List.length_drop]
    omega
  have hex := exchange_served ⟨ctx, m⟩ _ _ _ hconn
    (by simp [be16]) (by simp [regsToBytes_length, hlen]; omega)
    (wellFormed_read_registers _ _) hserve
  simp only [modbus_read_registers, hn, wire16_natCast, hex, checkFunction]
  simp [regsToBytes_length, hlen, bytesToRegs_regsToBytes _ hval]

/-! ## Write then read -/

/-- C3: for every address `addr` and every non-empty sequence `values` of `n` registers
(`uint16_t` values) with `addr + n` within the capacity of the server's holding registers and
`n` within the write-multiple-registers limit, on a connected client
`write_registers(addr, values)` returns normally and the following
`read_holding_registers(addr, n)` returns exactly `values`; each of the two requests is one
exchange (the TransactionId advances by one), served by one `receive_and_reply` call on the
server's Mapping. -/
theorem write_registers_then_read_back (ctx : modbus_t) (m : modbus_mapping_t) (addr : Nat)
    (values : List Nat) (hconn : ctx.state = .Connected) (hne : values ≠ [])
    (hlim : values.length ≤ MODBUS_MAX_WRITE_REGISTERS)
    (hcap : addr + values.length ≤ m.tab_registers.length)
    (hval : ∀ v ∈ values, v < 65536) :
    ∃ link1 link2,
      write_registers modbus_write_registers (addr : Int) values ⟨ctx, m⟩ = (.ok (), link1)
        ∧ read_holding_registers modbus_read_registers (addr : Int) (values.length : Int) link1
            = (.ok values, link2)
        ∧ link1.ctx.t_id = (ctx.t_id + 1) % 65536
        ∧ link2.ctx.t_id = (link1.ctx.t_id + 1) % 65536 := by
  have h1 : 1 ≤ values.length := by
    cases values with
    | nil => exact absurd rfl hne
    | cons v vs => simp
  have hlim' : values.length ≤ 123 := hlim
  have hw := modbus_write_registers_ok ctx m addr values hconn h1 hlim' hcap hval
  have hmod : addr % 65536 ≤ addr := Nat.mod_le _ _
  have hback := written_range_reads_back m.tab_registers values (addr % 65536) (by omega)
  have hr := modbus_read_registers_ok { ctx with t_id := (ctx.t_id + 1) % 65536 }
    { m with tab_registers := m.tab_registers.take (addr % 65536) ++ values
        ++ m.tab_registers.drop (addr % 65536 + values.length) }
    addr values.length hconn h1 (by omega)
    (by rw [setRange_length m.tab_registers values (addr % 65536) (by omega)]; exact hcap)
    (by rw [hback]; exact hval)
  rw [hback] at hr
  have hv := read_into_vector values (by omega)
  have hW : write_registers modbus_write_registers (addr : Int) values ⟨ctx, m⟩
      = (.ok (), ⟨{ ctx with t_id := (ctx.t_id + 1) % 65536 },
          { m with tab_registers := m.tab_registers.take (addr % 65536) ++ values
              ++ m.tab_registers.drop (addr % 65536 + values.length) }⟩) := by
    simp only [write_registers, hw, natCast_ne_neg_one, if_false]
  have hR : read_holding_registers modbus_read_registers (addr : Int) (values.length : Int)
      ⟨{ ctx with t_id := (ctx.t_id + 1) % 65536 },
          { m with tab_registers := m.tab_registers.take (addr % 65536) ++ values
              ++ m.tab_registers.drop (addr % 65536 + values.length) }⟩
      = (.ok values, ⟨{ ctx with t_id := ((ctx.t_id + 1) % 65536 + 1) % 65536 },
          { m with tab_registers := m.tab_registers.take (addr % 65536) ++ values
              ++ m.tab_registers.drop (addr % 65536 + values.length) }⟩) := by
    simp only [read_holding_registers, hv.1, hr, natCast_ne_neg_one, if_false, hv.2]
  exact ⟨_, _, hW, hR, rfl, rfl⟩

/-- C3 (witness): the scenario of the client example, `[1111,2222,3333,4444,5555]` written
at address 20 and read back, on a server with 50 holding registers preset to `i * 100`. -/
theorem write_registers_then_read_back_witness :
    ∃ link1 link2,
      write_registers modbus_write_registers 20 [1111, 2222, 3333, 4444, 5555]
          ⟨⟨4, 1, 0⟩, ⟨List.replicate 20 0, List.replicate 20 0,
            (List.range 50).map (· * 100), List.replicate 50 0⟩⟩ = (.ok (), link1)
        ∧ read_holding_registers modbus_read_registers 20 5 link1
            = (.ok [1111, 2222, 3333, 4444, 5555], link2)
        ∧ link1.ctx.t_id = (0 + 1) % 65536
        ∧ link2.ctx.t_id = (link1.ctx.t_id + 1) % 65536 :=
  write_registers_then_read_back ⟨4, 1, 0⟩
    ⟨List.replicate 20 0, List.replicate 20 0, (List.range 50).map (· * 100),
      List.replicate 50 0⟩
    20 [1111, 2222, 3333, 4444, 5555] (by decide) (by decide) (by decide) (by decide)
    (by decide)

/-! ## Write and read in one exchange -/

theorem written_table_getElem? (tab src : List Nat) (wa j : Nat)
    (hcap : wa + src.length ≤ tab.length) :
    (tab.take wa ++ src ++ tab.drop (wa + src.length))[j]?
      = if wa ≤ j ∧ j < wa + src.length then src[j - wa]? else tab[j]? := by
  have hlen : (tab.take wa).length = wa := by
    rw [List.length_take]
    omega
  by_cases h1 : j < wa
  · rw [if_neg (by omega), List.getElem?_append_left (by
      rw [List.length_append, hlen]; omega), List.getElem?_append_left (by omega),
      List.getElem?_take_of_lt h1]
  · by_cases h2 : j < wa + src.length
    · rw [if_pos ⟨by omega, h2⟩, List.getElem?_append_left (by
        rw [List.length_append, hlen]; omega), List.getElem?_append_right (by omega), hlen]
    · rw [if_neg (by omega), List.getElem?_append_right (by
        rw [List.length_append, hlen]; omega), List.length_append, hlen, List.getElem?_drop]
      congr 1
      omega

theorem written_table_mem (tab src : List Nat) (wa : Nat) (v : Nat)
    (hv : v ∈ tab.take wa ++ src ++ tab.drop (wa + src.length)) : v ∈ tab ∨ v ∈ src := by
  simp only [List.mem_append] at hv
  rcases hv with (h | h) | h
  · exact Or.inl (List.mem_of_mem_take h)
  · exact Or.inr h
  · exact Or.inl (List.mem_of_mem_drop h)

theorem servePDU_read_write_registers (m : modbus_mapping_t) (ra rn wa : Nat)
    (src : List Nat) (hra : ra < 65536) (hwa : wa < 65536)
    (hr1 : 1 ≤ rn) (hr2 : rn ≤ 125) (hw1 : 1 ≤ src.length) (hw2 : src.length ≤ 127)
    (hwcap : wa + src.length ≤ m.tab_registers.length)
    (hrcap : ra + rn ≤ m.tab_registers.length) (hval : ∀ v ∈ src, v < 65536) :
    servePDU m (0x17 :: be16 ra ++ be16 rn ++ be16 wa ++ be16 src.length
        ++ [2 * src.length % 256] ++ regsToBytes src)
      = ({ m with tab_registers :=
            m.tab_registers.take wa ++ src ++ m.tab_registers.drop (wa + src.length) },
          some (0x17 :: 2 * rn :: regsToBytes
            (((m.tab_registers.take wa ++ src
              ++ m.tab_registers.drop (wa + src.length)).drop ra).take rn))) := by
  have e1 : ra / 256 % 256 * 256 + ra % 256 = ra := by omega
  have e2 : rn / 256 % 256 * 256 + rn % 256 = rn := by omega
  have e3 : wa / 256 % 256 * 256 + wa % 256 = wa := by omega
  have e4 : src.length / 256 % 256 * 256 + src.length % 256 = src.length := by omega
  have e5 : 2 * src.length % 256 = 2 * src.length := by omega
  have hg := getRange_ok
    (m.tab_registers.take wa ++ src ++ m.tab_registers.drop (wa + src.length)) ra rn hr1
    (by rw [setRange_length m.tab_registers src wa hwcap]; exact hrcap)
  simp only [servePDU, be16, List.cons_append, List.nil_append, serveReadWriteRegisters, e1, e2,
    e3, e4, e5, regsToBytes_length, bytesToRegs_regsToBytes src hval, set_holding_registers,
    get_holding_registers, setRange_ok m.tab_registers src wa hw1 hwcap, Option.map_some',
    hg]
  simp
  omega

theorem modbus_write_and_read_registers_ok (ctx : modbus_t) (m : modbus_mapping_t)
    (write_addr read_addr read_nb : Nat) (src : List Nat)
    (hconn : ctx.state = .Connected)
    (hr1 : 1 ≤ read_nb) (hr2 : read_nb ≤ 125) (hw1 : 1 ≤ src.length) (hw2 : src.length ≤ 121)
    (hwcap : write_addr + src.length ≤ m.tab_registers.length)
    (hrcap : read_addr + read_nb ≤ m.tab_registers.length)
    (hval : ∀ v ∈ src, v < 65536) (hreg : registersInRange m) :
    modbus_write_and_read_registers (write_addr : Int) (to_int src.length) src
        (read_addr : Int) (read_nb : Int) ⟨ctx, m⟩
      = (⟨(read_nb : Int),
          ((m.tab_registers.take (write_addr % 65536) ++ src
            ++ m.tab_registers.drop (write_addr % 65536 + src.length)).drop
              (read_addr % 65536)).take read_nb⟩,
          ⟨{ ctx with t_id := (ctx.t_id + 1) % 65536 },
           { m with tab_registers := m.tab_registers.take (write_addr % 65536) ++ src
              ++ m.tab_registers.drop (write_addr % 65536 + src.length) }⟩) := by
  have hwn : wire16 (to_int src.length) = src.length := by
    rw [to_int_small _ (by omega), wire16_natCast]
    omega
  have hrn : wire16 (read_nb : Int) = read_nb := by
    rw [wire16_natCast]
    omega
  have hwm : write_addr % 65536 ≤ write_addr := Nat.mod_le _ _
  have hrm : read_addr % 65536 ≤ read_addr := Nat.mod_le _ _
  have hserve := servePDU_read_write_registers m (read_addr % 65536) read_nb
    (write_addr % 65536) src (by omega) (by omega) hr1 hr2 hw1 (by omega) (by omega)
    (by omega) hval
  have hlen : (((m.tab_registers.take (write_addr % 65536) ++ src
      ++ m.tab_registers.drop (write_addr % 65536 + src.length)).drop
        (read_addr % 65536)).take read_nb).length = read_nb := by
    rw [List.length_take, List.length_drop,
      setRange_length m.tab_registers src (write_addr % 65536) (by omega)]
    omega
  have hres : ∀ v ∈ ((m.tab_registers.take (write_addr % 65536) ++ src
      ++ m.tab_registers.drop (write_addr % 65536 + src.length)).drop
        (read_addr % 65536)).take read_nb, v < 65536 := by
    intro v hv
    rcases written_table_mem _ _ _ v (List.mem_of_mem_drop (List.mem_of_mem_take hv)) with h | h
    · exact hreg v h
    · exact hval v h
  generalize hR : ((m.tab_registers.take (write_addr % 65536) ++ src
      ++ m.tab_registers.drop (write_addr % 65536 + src.length)).drop
        (read_addr % 65536)).take read_nb = regs at hserve hlen hres ⊢
  generalize hM : m.tab_registers.take (write_addr % 65536) ++ src
      ++ m.tab_registers.drop (write_addr % 65536 + src.length) = after at hserve ⊢
  have hex := exchange_served ⟨ctx, m⟩ _ _ _ hconn
    (by simp [be16, regsToBytes_length]; omega) (by simp [regsToBytes_length, hlen]; omega)
    (wellFormed_read_write_registers _ _ _ src (by omega)) hserve
  simp only [modbus_write_and_read_registers, hwn, hrn, wire16_natCast, List.take_length, hex,
    checkFunction]
  simp [regsToBytes_length, hlen, bytesToRegs_regsToBytes _ hres]

theorem write_and_read_registers_wire (ctx : modbus_t) (m : modbus_mapping_t)
    (write_addr read_addr read_nb : Nat) (src : List Nat)
    (hconn : ctx.state = .Connected)
    (hr1 : 1 ≤ read_nb) (hr2 : read_nb ≤ 125) (hw1 : 1 ≤ src.length) (hw2 : src.length ≤ 121)
    (hwcap : write_addr + src.length ≤ m.tab_registers.length)
    (hrcap : read_addr + read_nb ≤ m.tab_registers.length)
    (hval : ∀ v ∈ src, v < 65536) (hreg : registersInRange m) :
    write_and_read_registers modbus_write_and_read_registers (write_addr : Int) src
        (read_addr : Int) (read_nb : Int) ⟨ctx, m⟩
      = (.ok (((m.tab_registers.take (write_addr % 65536) ++ src
            ++ m.tab_registers.drop (write_addr % 65536 + src.length)).drop
              (read_addr % 65536)).take read_nb),
          ⟨{ ctx with t_id := (ctx.t_id + 1) % 65536 },
           { m with tab_registers := m.tab_registers.take (write_addr % 65536) ++ src
              ++ m.tab_registers.drop (write_addr % 65536 + src.length) }⟩) := by
  have hlib := modbus_write_and_read_registers_ok ctx m write_addr read_addr read_nb src hconn
    hr1 hr2 hw1 hw2 hwcap hrcap hval hreg
  have hwm : write_addr % 65536 ≤ write_addr := Nat.mod_le _ _
  have hrm : read_addr % 65536 ≤ read_addr := Nat.mod_le _ _
  have hlen : (((m.tab_registers.take (write_addr % 65536) ++ src
      ++ m.tab_registers.drop (write_addr % 65536 + src.length)).drop
        (read_addr % 65536)).take read_nb).length = read_nb := by
    rw [List.length_take, List.length_drop,
      setRange_length m.tab_registers src (write_addr % 65536) (by omega)]
    omega
  generalize hR : ((m.tab_registers.take (write_addr % 65536) ++ src
      ++ m.tab_registers.drop (write_addr % 65536 + src.length)).drop
        (read_addr % 65536)).take read_nb = regs at hlib hlen ⊢
  have hv := read_into_vector regs (by omega)
  rw [hlen] at hv
  simp only [write_and_read_registers, hv.1, hlib, natCast_ne_neg_one, if_false, hv.2]

theorem wide_table_length : (List.replicate 65536 0 ++ [5]).length = 65536 + 1 := by
  rw [List.length_append, List.length_replicate, List.length_singleton]

set_option maxRecDepth 100000 in
/-- C4 (counterexample): inputs within the capacity of a table of 200 registers (of 65537
registers in the last case) on which `write_and_read_registers` does not return the registers
at `read_addr` as they are after the write: 128 registers to read, 122 registers to write, no
register to read and no register to write each end in `modbus::Exception`; and a read at
address 65536, which the 16-bit address field cannot carry, returns the register written at
address 0 instead of register 65536, which holds 5. -/
theorem write_and_read_outside_protocol_limits :
    isException (write_and_read_registers modbus_write_and_read_registers 0 [1] 0 128
        ⟨⟨4, 1, 0⟩, ⟨[], [], List.replicate 200 0, []⟩⟩).1 = true
      ∧ isException (write_and_read_registers modbus_write_and_read_registers 0
        (List.replicate 122 1) 0 1 ⟨⟨4, 1, 0⟩, ⟨[], [], List.replicate 200 0, []⟩⟩).1 = true
      ∧ isException (write_and_read_registers modbus_write_and_read_registers 0 [1] 0 0
        ⟨⟨4, 1, 0⟩, ⟨[], [], List.replicate 200 0, []⟩⟩).1 = true
      ∧ isException (write_and_read_registers modbus_write_and_read_registers 0 [] 0 1
        ⟨⟨4, 1, 0⟩, ⟨[], [], List.replicate 200 0, []⟩⟩).1 = true
      ∧ ((write_and_read_registers modbus_write_and_read_registers 0 [9] 65536 1
        ⟨⟨4, 1, 0⟩, ⟨[], [], List.replicate 65536 0 ++ [5], []⟩⟩).1 = .ok [9]
        ∧ (List.take 0 (List.replicate 65536 0 ++ [5]) ++ [9]
            ++ List.drop (0 + [9].length) (List.replicate 65536 0 ++ [5]))[65536]? = some 5)
    := by
  refine ⟨by decide, by decide, by decide, by decide, ?_, ?_⟩
  · have h := write_and_read_registers_wire ⟨4, 1, 0⟩
      ⟨[], [], List.replicate 65536 0 ++ [5], []⟩ 0 65536 1 [9] (by decide) (by decide)
      (by decide) (by decide) (by decide)
      (by
        show 0 + 1 ≤ (List.replicate 65536 0 ++ [5]).length
        rw [wide_table_length]
        decide)
      (by
        show 65536 + 1 ≤ (List.replicate 65536 0 ++ [5]).length
        rw [wide_table_length])
      (by decide)
      (by
        intro v hv
        rcases List.mem_append.mp hv with h | h
        · rw [(List.mem_replicate.mp h).2]
          decide
        · rw [List.mem_singleton.mp h]
          decide)
    have h' : write_and_read_registers modbus_write_and_read_registers 0 [9] 65536 1
          ⟨⟨4, 1, 0⟩, ⟨[], [], List.replicate 65536 0 ++ [5], []⟩⟩
        = (.ok (List.take 1 (List.drop 0 (List.take 0 (List.replicate 65536 0 ++ [5]) ++ [9]
            ++ List.drop (0 + 1) (List.replicate 65536 0 ++ [5])))), _) := h
    rw [h']
    rfl
  · rw [written_table_getElem? _ _ _ _ (by
        rw [wide_table_length]
        decide),
      if_neg (by decide), List.getElem?_append_right (by
        rw [List.length_replicate]), List.length_replicate, Nat.sub_self]
    rfl

/-- C4 (amended): on a connected client, for every `write_addr`, non-empty `src` of at most
121 registers, `read_addr` and `read_nb` between 1 and 125, with both ranges within the
capacity of the holding registers and both addresses below 65536 (the range of the 16-bit
address fields), `write_and_read_registers(write_addr, src, read_addr, read_nb)` performs one
exchange (the TransactionId advances by one) in which `src` is written at `write_addr` before
the read is taken and returns the
`read_nb` holding registers from `read_addr` on as they are after the write: the newly written
value where the read range overlaps the written range, the previous content elsewhere. -/
theorem write_and_read_registers_after_write (ctx : modbus_t) (m : modbus_mapping_t)
    (write_addr read_addr read_nb : Nat) (src : List Nat)
    (hconn : ctx.state = .Connected)
    (hr1 : 1 ≤ read_nb) (hr2 : read_nb ≤ MODBUS_MAX_READ_REGISTERS)
    (hw1 : src ≠ []) (hw2 : src.length ≤ MODBUS_MAX_WR_WRITE_REGISTERS)
    (hwa : write_addr < 65536) (hra : read_addr < 65536)
    (hwcap : write_addr + src.length ≤ m.tab_registers.length)
    (hrcap : read_addr + read_nb ≤ m.tab_registers.length)
    (hval : ∀ v ∈ src, v < 65536) (hreg : registersInRange m) :
    ∃ link,
      write_and_read_registers modbus_write_and_read_registers (write_addr : Int) src
          (read_addr : Int) (read_nb : Int) ⟨ctx, m⟩
        = (.ok (((m.tab_registers.take write_addr ++ src
              ++ m.tab_registers.drop (write_addr + src.length)).drop read_addr).take read_nb),
            link)
      ∧ link.ctx.t_id = (ctx.t_id + 1) % 65536
      ∧ link.server.tab_registers
          = m.tab_registers.take write_addr ++ src
              ++ m.tab_registers.drop (write_addr + src.length)
      ∧ ∀ i, i < read_nb →
          (((m.tab_registers.take write_addr ++ src
              ++ m.tab_registers.drop (write_addr + src.length)).drop read_addr).take
                read_nb)[i]?
            = if write_addr ≤ read_addr + i ∧ read_addr + i < write_addr + src.length
              then src[read_addr + i - write_addr]? else m.tab_registers[read_addr + i]? := by
  have h1 : 1 ≤ src.length := by
    cases src with
    | nil => exact absurd rfl hw1
    | cons v vs => simp
  have h := write_and_read_registers_wire ctx m write_addr read_addr read_nb src hconn hr1 hr2
    h1 hw2 hwcap hrcap hval hreg
  rw [Nat.mod_eq_of_lt hwa, Nat.mod_eq_of_lt hra] at h
  refine ⟨_, h, rfl, rfl, ?_⟩
  intro i hi
  rw [List.getElem?_take_of_lt hi, List.getElem?_drop,
    written_table_getElem? m.tab_registers src write_addr (read_addr + i) hwcap]

/-- C4 (witness): the scenario of the client example: on 50 holding registers preset to
`i * 100`, writing `[9999,8888,7777]` at 30 and reading 5 registers from 28 returns
`[2800,2900,9999,8888,7777]`. -/
theorem write_and_read_registers_after_write_witness :
    ∃ link,
      write_and_read_registers modbus_write_and_read_registers 30 [9999, 8888, 7777] 28 5
          ⟨⟨4, 1, 0⟩, ⟨List.replicate 20 0, List.replicate 20 0,
            (List.range 50).map (· * 100), List.replicate 50 0⟩⟩
        = (.ok [2800, 2900, 9999, 8888, 7777], link) := by
  obtain ⟨link, h, _, _, _⟩ := write_and_read_registers_after_write ⟨4, 1, 0⟩
    ⟨List.replicate 20 0, List.replicate 20 0, (List.range 50).map (· * 100),
      List.replicate 50 0⟩
    30 28 5 [9999, 8888, 7777] (by decide) (by decide) (by decide) (by decide) (by decide)
    (by decide) (by decide) (by decide) (by decide) (by decide) (by decide)
  exact ⟨link, h⟩

theorem length_four (l : List Nat) (h : l.length = 4) : ∃ a b c d, l = [a, b, c, d] := by
  match l, h with
  | [a, b, c, d], _ => exact ⟨a, b, c, d, rfl⟩

theorem serveReadBits_replies (function : Nat) (tab : List Nat) (a b c d : Nat) :
    ∃ response, serveReadBits function tab [a, b, c, d] = some response := by
  unfold serveReadBits
  dsimp only
  split
  · exact ⟨_, rfl⟩
  · split
    · exact ⟨_, rfl⟩
    · exact ⟨_, rfl⟩

theorem serveReadRegisters_replies (function : Nat) (tab : List Nat) (a b c d : Nat) :
    ∃ response, serveReadRegisters function tab [a, b, c, d] = some response := by
  unfold serveReadRegisters
  dsimp only
  split
  · exact ⟨_, rfl⟩
  · split
    · exact ⟨_, rfl⟩
    · exact ⟨_, rfl⟩

theorem serveWriteSingleCoil_replies (m : modbus_mapping_t) (a b c d : Nat) :
    ∃ response, (serveWriteSingleCoil m [a, b, c, d]).2 = some response := by
  unfold serveWriteSingleCoil
  dsimp only
  split
  · exact ⟨_, rfl⟩
  · split
    · exact ⟨_, rfl⟩
    · exact ⟨_, rfl⟩

theorem serveWriteSingleRegister_replies (m : modbus_mapping_t) (a b c d : Nat) :
    ∃ response, (serveWriteSingleRegister m [a, b, c, d]).2 = some response := by
  unfold serveWriteSingleRegister
  dsimp only
  split
  · exact ⟨_, rfl⟩
  · exact ⟨_, rfl⟩

theorem serveWriteCoils_replies (m : modbus_mapping_t) (ah al ch cl bc : Nat)
    (data : List Nat) (h : bc = (ch * 256 + cl + 7) / 8 ∧ data.length = bc) :
    ∃ response, (serveWriteCoils m (ah :: al :: ch :: cl :: bc :: data)).2 = some response := by
  unfold serveWriteCoils
  dsimp only
  rw [if_pos h]
  split
  · exact ⟨_, rfl⟩
  · exact ⟨_, rfl⟩

theorem serveWriteRegisters_replies (m : modbus_mapping_t) (ah al ch cl bc : Nat)
    (data : List Nat) (h : bc = 2 * (ch * 256 + cl) ∧ data.length = bc) :
    ∃ response,
      (serveWriteRegisters m (ah :: al :: ch :: cl :: bc :: data)).2 = some response := by
  unfold serveWriteRegisters
  dsimp only
  rw [if_pos h]
  split
  · exact ⟨_, rfl⟩
  · exact ⟨_, rfl⟩

theorem serveReadWriteRegisters_replies (m : modbus_mapping_t)
    (rah ral rch rcl wah wal wch wcl bc : Nat) (data : List Nat)
    (h : bc = 2 * (wch * 256 + wcl) ∧ data.length = bc) :
    ∃ response, (serveReadWriteRegisters m
      (rah :: ral :: rch :: rcl :: wah :: wal :: wch :: wcl :: bc :: data)).2
        = some response := by
  unfold serveReadWriteRegisters
  dsimp only
  rw [if_pos h]
  split
  · exact ⟨_, rfl⟩
  · split
    · exact ⟨_, rfl⟩
    · split
      · exact ⟨_, rfl⟩
      · exact ⟨_, rfl⟩

theorem servePDU_replies (m : modbus_mapping_t) (pdu : List Nat)
    (h : wellFormedPDU pdu = true) : ∃ response, (servePDU m pdu).2 = some response := by
  cases pdu with
  | nil => cases h
  | cons function payload =>
    unfold wellFormedPDU at h
    unfold servePDU
    dsimp only at h ⊢
    by_cases h1 : function = 0x01
    · subst h1
      simp only [true_or, if_true, decide_eq_true_eq] at h
      obtain ⟨a, b, c, d, rfl⟩ := length_four payload h
      simpa using serveReadBits_replies 0x01 m.tab_bits a b c d
    by_cases h2 : function = 0x02
    · subst h2
      simp only [true_or, or_true, if_true, decide_eq_true_eq] at h
      obtain ⟨a, b, c, d, rfl⟩ := length_four payload h
      simpa using serveReadBits_replies 0x02 m.tab_input_bits a b c d
    by_cases h3 : function = 0x03
    · subst h3
      simp only [true_or, or_true, if_true, decide_eq_true_eq] at h
      obtain ⟨a, b, c, d, rfl⟩ := length_four payload h
      simpa using serveReadRegisters_replies 0x03 m.tab_registers a b c d
    by_cases h4 : function = 0x04
    · subst h4
      simp only [true_or, or_true, if_true, decide_eq_true_eq] at h
      obtain ⟨a, b, c, d, rfl⟩ := length_four payload h
      simpa using serveReadRegisters_replies 0x04 m.tab_input_registers a b c d
    by_cases h5 : function = 0x05
    · subst h5
      simp only [true_or, or_true, if_true, decide_eq_true_eq] at h
      obtain ⟨a, b, c, d, rfl⟩ := length_four payload h
      simpa using serveWriteSingleCoil_replies m a b c d
    by_cases h6 : function = 0x06
    · subst h6
      simp only [true_or, or_true, if_true, decide_eq_true_eq] at h
      obtain ⟨a, b, c, d, rfl⟩ := length_four payload h
      simpa using serveWriteSingleRegister_replies m a b c d
    simp only [h1, h2, h3, h4, h5, h6, or_self, if_false] at h ⊢
    by_cases h7 : function = 0x0F
    · subst h7
      simp only [if_true] at h ⊢
      split at h
      · rename_i ah al ch cl bc data
        exact serveWriteCoils_replies m ah al ch cl bc data (of_decide_eq_true h)
      · cases h
    by_cases h8 : function = 0x10
    · subst h8
      simp only [if_true] at h ⊢
      simp only [Nat.reduceEqDiff, if_false] at h ⊢
      split at h
      · rename_i ah al ch cl bc data
        exact serveWriteRegisters_replies m ah al ch cl bc data (of_decide_eq_true h)
      · cases h
    by_cases h9 : function = 0x17
    · subst h9
      simp only [if_true] at h ⊢
      simp only [Nat.reduceEqDiff, if_false] at h ⊢
      split at h
      · rename_i rah ral rch rcl wah wal wch wcl bc data
        exact serveReadWriteRegisters_replies m rah ral rch rcl wah wal wch wcl bc data
          (of_decide_eq_true h)
      · cases h
    simp only [h7, h8, h9, if_false]
    exact ⟨_, rfl⟩

theorem tcpDecode_some_length (frame : List Nat) (x : Nat × Nat × List Nat)
    (h : tcpDecode frame = some x) : (0 : Int) < (frame.length : Int) := by
  cases frame with
  | nil => simp [tcpDecode] at h
  | cons b rest =>
    rw [List.length_cons]
    omega

/-- In the modelled library the reply step answers every request the receive step accepts:
one call of `receive_and_reply` writes exactly one frame back when it returns a positive
length and nothing otherwise, in which case the mapping is untouched. -/
theorem receive_and_reply_writes_one_frame (client : ServerConn) (m : modbus_mapping_t) :
    (0 < (ModbusTCPServer.receive_and_reply modbus_receive modbus_reply client m).ret →
        ∃ frame, (ModbusTCPServer.receive_and_reply modbus_receive modbus_reply
          client m).client.outbound = client.outbound ++ [frame])
      ∧ (¬ 0 < (ModbusTCPServer.receive_and_reply modbus_receive modbus_reply client m).ret →
        (ModbusTCPServer.receive_and_reply modbus_receive modbus_reply
          client m).client.outbound = client.outbound
        ∧ (ModbusTCPServer.receive_and_reply modbus_receive modbus_reply
          client m).mapping = m) := by
  rcases client with ⟨inbound, outbound⟩
  cases inbound with
  | nil => simp [ModbusTCPServer.receive_and_reply, modbus_receive]
  | cons frame rest =>
    cases hd : tcpDecode frame with
    | none => simp [ModbusTCPServer.receive_and_reply, modbus_receive, hd]
    | some x =>
      obtain ⟨t, u, pdu⟩ := x
      have hpos := tcpDecode_some_length frame _ hd
      by_cases hwf : wellFormedPDU pdu = true
      · obtain ⟨response, hr⟩ := servePDU_replies m pdu hwf
        have hs : servePDU m pdu = ((servePDU m pdu).1, some response) := by
          rw [← hr]
        simp only [ModbusTCPServer.receive_and_reply, modbus_receive, hd, hwf, if_true,
          gt_iff_lt, hpos, modbus_reply, Int.toNat_ofNat, List.take_length]
        rw [hs]
        simp
      · simp [ModbusTCPServer.receive_and_reply, modbus_receive, hd, hwf]

/-! ## `accept` on a server that is not listening -/

section listening
variable {σ : Type}

theorem listen_raises_iff (lstn : modbus_t → Int → σ → Int × σ) (server : ServerImpl)
    (nb_connection : Int) (net : σ) :
    isException (ModbusTCPServer.listen lstn server nb_connection net).1 = true
      ↔ (lstn server.ctx nb_connection net).1 = -1 := by
  unfold ModbusTCPServer.listen
  dsimp only
  by_cases h : (lstn server.ctx nb_connection net).1 = -1
  · rw [if_pos h]
    exact ⟨fun _ => h, fun _ => rfl⟩
  · rw [if_neg h]
    exact ⟨fun hx => (by cases hx), fun hx => absurd hx h⟩

theorem listen_failed_socket (lstn : modbus_t → Int → σ → Int × σ) (server : ServerImpl)
    (nb_connection : Int) (net : σ) (e : Raised)
    (h : (ModbusTCPServer.listen lstn server nb_connection net).1 = .error e) :
    (ModbusTCPServer.listen lstn server nb_connection net).2.1.socket = -1 := by
  unfold ModbusTCPServer.listen at h ⊢
  dsimp only at h ⊢
  by_cases hs : (lstn server.ctx nb_connection net).1 = -1
  · rw [if_pos hs]
    exact hs
  · rw [if_neg hs] at h
    cases h

theorem accept_without_listening
    (acc : modbus_t → Int → σ → (Int × modbus_t × Int) × σ)
    (new_tcp : σ → Option modbus_t × σ) (server : ServerImpl) (net : σ)
    (h : server.socket = -1) :
    ModbusTCPServer.accept acc new_tcp server net
      = (.error (.Exception "服务器未监听，无法接受连接"), server, net) := by
  unfold ModbusTCPServer.accept
  rw [if_pos h]

theorem call_keeps_socket_closed (lstn : modbus_t → Int → σ → Int × σ)
    (acc : modbus_t → Int → σ → (Int × modbus_t × Int) × σ)
    (new_tcp : σ → Option modbus_t × σ) (r : ServerRun σ) (c : ServerCall)
    (hinv : r.notListening → r.server.socket = -1) :
    (ModbusTCPServer.call lstn acc new_tcp r c).notListening →
      (ModbusTCPServer.call lstn acc new_tcp r c).server.socket = -1 := by
  intro hn
  cases c with
  | listen nb_connection =>
    rcases hn with hn | ⟨e, hn⟩
    · cases hn
    · exact listen_failed_socket lstn r.server nb_connection r.net e (Option.some.inj hn)
  | accept =>
    have hs : r.server.socket = -1 := hinv hn
    show (ModbusTCPServer.accept acc new_tcp r.server r.net).2.1.socket = -1
    rw [accept_without_listening acc new_tcp r.server r.net hs]
    exact hs

theorem calls_keep_socket_closed (lstn : modbus_t → Int → σ → Int × σ)
    (acc : modbus_t → Int → σ → (Int × modbus_t × Int) × σ)
    (new_tcp : σ → Option modbus_t × σ) (cs : List ServerCall) (r : ServerRun σ)
    (hinv : r.notListening → r.server.socket = -1) :
    (ModbusTCPServer.calls lstn acc new_tcp r cs).notListening →
      (ModbusTCPServer.calls lstn acc new_tcp r cs).server.socket = -1 := by
  induction cs generalizing r with
  | nil => exact hinv
  | cons c cs ih =>
    exact ih (ModbusTCPServer.call lstn acc new_tcp r c)
      (call_keeps_socket_closed lstn acc new_tcp r c hinv)

end listening

/-- C11: take a server as its constructor leaves it and let the application make any sequence
of `listen()` and `accept()` calls.  In every state so reached in which `listen()` has never
been called or the last `listen()` failed, the listening socket is `-1` and `accept()`,
whatever the transport would do, raises `modbus::Exception` and leaves the server and the
transport as they are: it makes no accept attempt on the transport and creates no client
Connection.  And `listen()` raises `modbus::Exception` exactly when the underlying listen call
returns `-1`. -/
theorem accept_raises_unless_listening {σ : Type}
    (lstn : modbus_t → Int → σ → Int × σ)
    (acc : modbus_t → Int → σ → (Int × modbus_t × Int) × σ)
    (new_tcp : σ → Option modbus_t × σ)
    (ctx : Option modbus_t) (server : ServerImpl) (net : σ) (cs : List ServerCall)
    (hnew : ModbusTCPServer.new ctx = .ok server)
    (hnot : (ModbusTCPServer.calls lstn acc new_tcp ⟨server, net, none⟩ cs).notListening) :
    (ModbusTCPServer.calls lstn acc new_tcp ⟨server, net, none⟩ cs).server.socket = -1
      ∧ (∀ (acc' : modbus_t → Int → σ → (Int × modbus_t × Int) × σ)
          (new_tcp' : σ → Option modbus_t × σ),
          ModbusTCPServer.accept acc' new_tcp'
              (ModbusTCPServer.calls lstn acc new_tcp ⟨server, net, none⟩ cs).server
              (ModbusTCPServer.calls lstn acc new_tcp ⟨server, net, none⟩ cs).net
            = (.error (.Exception "服务器未监听，无法接受连接"),
                (ModbusTCPServer.calls lstn acc new_tcp ⟨server, net, none⟩ cs).server,
                (ModbusTCPServer.calls lstn acc new_tcp ⟨server, net, none⟩ cs).net))
      ∧ (∀ (server' : ServerImpl) (nb_connection : Int) (net' : σ),
          isException (ModbusTCPServer.listen lstn server' nb_connection net').1 = true
            ↔ (lstn server'.ctx nb_connection net').1 = -1) := by
  have h0 : server.socket = -1 := by
    cases ctx with
    | none => cases hnew
    | some c =>
      simp only [ModbusTCPServer.new, Except.ok.injEq] at hnew
      rw [← hnew]
  have hs := calls_keep_socket_closed lstn acc new_tcp cs ⟨server, net, none⟩ (fun _ => h0) hnot
  exact ⟨hs, fun acc' new_tcp' => accept_without_listening acc' new_tcp' _ _ hs,
    fun server' nb_connection net' => listen_raises_iff lstn server' nb_connection net'⟩

/-- C11 (witness): a transport that counts the accept attempts made on it and on which every
listen fails.  After `accept()`, `listen(1)`, `accept()` the server is not listening; a
further `accept()` raises `modbus::Exception` and the count of accept attempts is still 0. -/
theorem accept_raises_unless_listening_witness :
    (ModbusTCPServer.accept
        (fun ctx socket (n : Nat) => (((5 : Int), ctx, socket), n + 1))
        (fun (n : Nat) => (some ⟨-1, 255, 0⟩, n))
        (ModbusTCPServer.calls (fun _ _ (n : Nat) => ((-1 : Int), n))
          (fun ctx socket (n : Nat) => (((5 : Int), ctx, socket), n + 1))
          (fun (n : Nat) => (some ⟨-1, 255, 0⟩, n))
          ⟨⟨⟨-1, 255, 0⟩, -1⟩, 0, none⟩ [.accept, .listen 1, .accept]).server
        (ModbusTCPServer.calls (fun _ _ (n : Nat) => ((-1 : Int), n))
          (fun ctx socket (n : Nat) => (((5 : Int), ctx, socket), n + 1))
          (fun (n : Nat) => (some ⟨-1, 255, 0⟩, n))
          ⟨⟨⟨-1, 255, 0⟩, -1⟩, 0, none⟩ [.accept, .listen 1, .accept]).net
      = (.error (.Exception "服务器未监听，无法接受连接"), ⟨⟨-1, 255, 0⟩, -1⟩, 0))
      ∧ (isException (ModbusTCPServer.listen (fun _ _ (n : Nat) => ((-1 : Int), n))
          ⟨⟨-1, 255, 0⟩, -1⟩ 1 0).1 = true) :=
  have h := accept_raises_unless_listening (fun _ _ (n : Nat) => ((-1 : Int), n))
    (fun ctx socket (n : Nat) => (((5 : Int), ctx, socket), n + 1))
    (fun (n : Nat) => (some ⟨-1, 255, 0⟩, n))
    (some ⟨-1, 255, 0⟩) ⟨⟨-1, 255, 0⟩, -1⟩ 0 [.accept, .listen 1, .accept] rfl
    (Or.inr ⟨_, rfl⟩)
  ⟨h.2.1 _ _, (h.2.2 ⟨⟨-1, 255, 0⟩, -1⟩ 1 0).mpr rfl⟩

end modbus
